import Mathlib

/-!
Shallow embedding of the Partisia liquidity-swap contract
(`contracts/liquidity-swap/src/lib.rs`) and proofs about its
math kernel, balance ledger and public operations.

Machine integers (`u128`) are modelled as `Nat`.  The pricing formulas are
stated in exact integer arithmetic; a second, `checked` copy of the math
kernel models the overflow-aborting `u128` arithmetic (each intermediate
product/sum is tested against `2 ^ 128`, and division by zero aborts, as a
Rust panic does).  Fallible operations return `Option`: `none` models a
panicking (aborting) call, which on the chain leaves the persisted state
unchanged.
-/

namespace LiquiditySwap

/-- The first value that does not fit in a `u128`. -/
def U128_LIMIT : Nat := 2 ^ 128

/-! ## Math kernel (exact integer arithmetic) -/

/-- One fuel-indexed step of the binary-search loop of `u128_sqrt`
(source lines 664-679): `while l != r - 1 { m = (l + r) / 2; if m * m <= y
{ l = m } else { r = m } }`.  The interval `r - l` shrinks by at least one
each iteration, so any fuel at least `r - l - 1` is enough to reach the
loop exit; when fuel runs out the current `l` is returned, which by
`sqrtLoopF_isSqrt` only happens when the loop would have exited anyway. -/
def sqrtLoopF : Nat → Nat → Nat → Nat → Nat
  | 0, _, l, _ => l
  | fuel + 1, y, l, r =>
    if l = r - 1 then l
    else
      let m := (l + r) / 2
      if m * m ≤ y then sqrtLoopF fuel y m r
      else sqrtLoopF fuel y l m

/-- `u128_sqrt` (source lines 664-679): binary search for the square root,
`l = 0`, `r = y + 1`, rounding down. -/
def u128_sqrt (y : Nat) : Nat := sqrtLoopF (y + 1) y 0 (y + 1)

/-- `initial_liquidity_tokens` (source lines 630-632). -/
def initial_liquidity_tokens (token_a_amount token_b_amount : Nat) : Nat :=
  u128_sqrt (token_a_amount * token_b_amount)

/-- `calculate_swap_to_amount` (source lines 694-703).  The division is
guarded: dividing by zero panics in Rust, modelled by `none`. -/
def calculate_swap_to_amount (from_pool to_pool swap_from_amount swap_fee_per_mille : Nat) :
    Option Nat :=
  let remainder := 1000 - swap_fee_per_mille
  if 1000 * from_pool + remainder * swap_from_amount = 0 then none
  else some ((remainder * swap_from_amount * to_pool) /
    (1000 * from_pool + remainder * swap_from_amount))

/-- `calculate_equivalent_and_minted_tokens` (source lines 720-734).  Both
divisions have divisor `provided_pool`; in Rust they panic when it is zero
(the `minted_liquidity_tokens` division is reached even when
`provided_amount = 0`), modelled by `none`. -/
def calculate_equivalent_and_minted_tokens
    (provided_amount provided_pool opposite_pool total_minted_liquidity : Nat) :
    Option (Nat × Nat) :=
  if provided_pool = 0 then none
  else
    let opposite_equivalent :=
      if provided_amount > 0 then provided_amount * opposite_pool / provided_pool + 1 else 0
    let minted_liquidity_tokens := provided_amount * total_minted_liquidity / provided_pool
    some (opposite_equivalent, minted_liquidity_tokens)

/-- `calculate_reclaim_output` (source lines 752-761).  Both divisions have
divisor `minted_liquidity`; Rust panics when it is zero, modelled by
`none`. -/
def calculate_reclaim_output (liquidity_token_amount pool_a pool_b minted_liquidity : Nat) :
    Option (Nat × Nat) :=
  if minted_liquidity = 0 then none
  else some (pool_a * liquidity_token_amount / minted_liquidity,
    pool_b * liquidity_token_amount / minted_liquidity)

/-! ## Checked math kernel

Modelled from the spec: the build profile (workspace `Cargo.toml`, not under
`src/`) decides whether `u128` arithmetic panics or wraps on overflow; the
spec (sections 4.1 and 7) requires every kernel function to abort with an
arithmetic-overflow error rather than wrap, so each `u128` operation is
modelled as checked against `2 ^ 128`. -/

/-- Checked `u128` addition: aborts (`none`) when the exact sum does not fit. -/
def chkAdd (a b : Nat) : Option Nat :=
  if a + b < U128_LIMIT then some (a + b) else none

/-- Checked `u128` subtraction: aborts on underflow. -/
def chkSub (a b : Nat) : Option Nat :=
  if b ≤ a then some (a - b) else none

/-- Checked `u128` multiplication: aborts when the exact product does not fit. -/
def chkMul (a b : Nat) : Option Nat :=
  if a * b < U128_LIMIT then some (a * b) else none

/-- Checked `u128` division: aborts on a zero divisor (a Rust panic in every
build profile). -/
def chkDiv (a b : Nat) : Option Nat :=
  if b = 0 then none else some (a / b)

/-- The binary-search loop of `u128_sqrt` with every `u128` operation
checked (see the checked-kernel header comment). -/
def sqrtLoopC : Nat → Nat → Nat → Nat → Option Nat
  | 0, _, l, _ => some l
  | fuel + 1, y, l, r =>
    if l = r - 1 then some l
    else
      match chkAdd l r with
      | none => none
      | some s =>
        match chkMul (s / 2) (s / 2) with
        | none => none
        | some mm =>
          if mm ≤ y then sqrtLoopC fuel y (s / 2) r
          else sqrtLoopC fuel y l (s / 2)

/-- `u128_sqrt` with checked `u128` arithmetic: `r` is initialized to the
checked `y + 1`, then the loop runs with checked operations. -/
def u128_sqrt_checked (y : Nat) : Option Nat :=
  match chkAdd y 1 with
  | none => none
  | some r => sqrtLoopC (y + 1) y 0 r

/-- `calculate_swap_to_amount` with checked `u128` arithmetic, following the
source expression step by step. -/
def calculate_swap_to_amount_checked (from_pool to_pool swap_from_amount swap_fee_per_mille : Nat) :
    Option Nat := do
  let remainder ← chkSub 1000 swap_fee_per_mille
  let n1 ← chkMul remainder swap_from_amount
  let numerator ← chkMul n1 to_pool
  let d1 ← chkMul 1000 from_pool
  let d2 ← chkMul remainder swap_from_amount
  let denominator ← chkAdd d1 d2
  chkDiv numerator denominator

/-- `calculate_equivalent_and_minted_tokens` with checked `u128` arithmetic. -/
def calculate_equivalent_and_minted_tokens_checked
    (provided_amount provided_pool opposite_pool total_minted_liquidity : Nat) :
    Option (Nat × Nat) := do
  let opposite_equivalent ←
    if provided_amount > 0 then do
      let t1 ← chkMul provided_amount opposite_pool
      let t2 ← chkDiv t1 provided_pool
      chkAdd t2 1
    else some 0
  let m1 ← chkMul provided_amount total_minted_liquidity
  let minted_liquidity_tokens ← chkDiv m1 provided_pool
  some (opposite_equivalent, minted_liquidity_tokens)

/-- `calculate_reclaim_output` with checked `u128` arithmetic. -/
def calculate_reclaim_output_checked
    (liquidity_token_amount pool_a pool_b minted_liquidity : Nat) : Option (Nat × Nat) := do
  let t1 ← chkMul pool_a liquidity_token_amount
  let a_output ← chkDiv t1 minted_liquidity
  let t2 ← chkMul pool_b liquidity_token_amount
  let b_output ← chkDiv t2 minted_liquidity
  some (a_output, b_output)

/-! ## Data model -/

/-- The `Token` enum (source lines 47-59). -/
inductive Token where
  | TokenA : Token
  | TokenB : Token
  | LiquidityToken : Token
  deriving DecidableEq

/-- `TokenBalance` (source lines 71-78). -/
structure TokenBalance where
  a_tokens : Nat
  b_tokens : Nat
  liquidity_tokens : Nat
  deriving DecidableEq

/-- `TokenBalance::get_amount_of` (source lines 89-97). -/
def TokenBalance.get_amount_of (self : TokenBalance) (token : Token) : Nat :=
  if token = Token.LiquidityToken then self.liquidity_tokens
  else if token = Token.TokenA then self.a_tokens
  else self.b_tokens

/-- Writing through `TokenBalance::get_mut_amount_of` (source lines 107-115):
the functional form of `*self.get_mut_amount_of(token) = v`. -/
def TokenBalance.set_amount_of (self : TokenBalance) (token : Token) (v : Nat) : TokenBalance :=
  if token = Token.LiquidityToken then { self with liquidity_tokens := v }
  else if token = Token.TokenA then { self with a_tokens := v }
  else { self with b_tokens := v }

/-- `TokenBalance::user_has_no_tokens` (source lines 121-123). -/
def TokenBalance.user_has_no_tokens (self : TokenBalance) : Bool :=
  self.a_tokens == 0 && self.b_tokens == 0 && self.liquidity_tokens == 0

/-- `EMPTY_BALANCE` (source lines 127-131). -/
def EMPTY_BALANCE : TokenBalance := { a_tokens := 0, b_tokens := 0, liquidity_tokens := 0 }

/-- Lookup in the `token_balances` map.  The `BTreeMap` is modelled as an
association list; key order is irrelevant to every property proved here. -/
def lookupBal : List (Nat × TokenBalance) → Nat → Option TokenBalance
  | [], _ => none
  | e :: rest, u => if e.1 = u then some e.2 else lookupBal rest u

/-- Insert-or-replace in the `token_balances` map (`BTreeMap::entry` /
`or_insert` followed by a write). -/
def setBal : List (Nat × TokenBalance) → Nat → TokenBalance → List (Nat × TokenBalance)
  | [], u, tb => [(u, tb)]
  | e :: rest, u, tb => if e.1 = u then (u, tb) :: rest else e :: setBal rest u tb

/-- Key removal in the `token_balances` map (`BTreeMap::remove`). -/
def removeBal : List (Nat × TokenBalance) → Nat → List (Nat × TokenBalance)
  | [], _ => []
  | e :: rest, u => if e.1 = u then removeBal rest u else e :: removeBal rest u

/-- `LiquiditySwapContractState` (source lines 137-149).  Addresses are
modelled as `Nat`; the `AddressType` distinction only feeds the
`initialize` assertions and is irrelevant to the claims proved here. -/
structure LiquiditySwapContractState where
  contract : Nat
  token_a_address : Nat
  token_b_address : Nat
  swap_fee_per_mille : Nat
  token_balances : List (Nat × TokenBalance)
  deriving DecidableEq

/-- `get_balance_for` (source lines 216-219): total lookup with the empty
balance as default; never creates an entry. -/
def get_balance_for (state : LiquiditySwapContractState) (user : Nat) : TokenBalance :=
  (lookupBal state.token_balances user).getD EMPTY_BALANCE

/-- `add_to_token_balance` (source lines 163-166): `entry(user).or_insert`
followed by `+= amount`.  Note that an absent user gets an explicit entry
even when `amount = 0`. -/
def add_to_token_balance (state : LiquiditySwapContractState) (user : Nat) (token : Token)
    (amount : Nat) : LiquiditySwapContractState :=
  let tb := get_balance_for state user
  let bals := setBal state.token_balances user
    (tb.set_amount_of token (tb.get_amount_of token + amount))
  { state with token_balances := bals }

/-- `deduct_from_token_balance` (source lines 179-189): checked subtraction
(`expect "Insufficient funds"` panics, modelled by `none`), then removal of
the entry when the resulting record is all-zero. -/
def deduct_from_token_balance (state : LiquiditySwapContractState) (user : Nat) (token : Token)
    (amount : Nat) : Option LiquiditySwapContractState :=
  let tb := get_balance_for state user
  if amount ≤ tb.get_amount_of token then
    let tb2 := tb.set_amount_of token (tb.get_amount_of token - amount)
    let bals := setBal state.token_balances user tb2
    let state2 := { state with token_balances := bals }
    let bals2 := removeBal state2.token_balances user
    some (if tb2.user_has_no_tokens then { state2 with token_balances := bals2 } else state2)
  else none

/-- `move_tokens` (source lines 203-206): deduct from `from_addr`, then add
to `to_addr`. -/
def move_tokens (state : LiquiditySwapContractState) (from_addr to_addr : Nat) (moved_token : Token)
    (amount : Nat) : Option LiquiditySwapContractState :=
  (deduct_from_token_balance state from_addr moved_token amount).map
    (fun state2 => add_to_token_balance state2 to_addr moved_token amount)

/-- `deduce_provided_opposite_tokens` (source lines 244-256): panics
(`none`) when the address matches neither configured token. -/
def deduce_provided_opposite_tokens (state : LiquiditySwapContractState)
    (provided_token_address : Nat) : Option (Token × Token) :=
  let provided_a := state.token_a_address = provided_token_address
  let provided_b := state.token_b_address = provided_token_address
  if ¬provided_a ∧ ¬provided_b then none
  else if provided_a then some (Token.TokenA, Token.TokenB)
  else some (Token.TokenB, Token.TokenA)

/-- `contract_pools_have_liquidity` (source lines 266-269). -/
def contract_pools_have_liquidity (state : LiquiditySwapContractState) : Bool :=
  let contract_token_balance := get_balance_for state state.contract
  contract_token_balance.a_tokens != 0 && contract_token_balance.b_tokens != 0

/-! ## Public operations

Each operation is the ledger effect of the corresponding `#[action]` /
`#[callback]` entry point.  A `none` result models a panicking call, which
leaves the persisted chain state unchanged.  `deposit` (lines 339-361) and
the outbound event halves of `withdraw` emit external events and do not
touch the ledger; only `deposit_callback` mutates it. -/

/-- `initialize` (source lines 288-322): validates the configuration and
creates the empty ledger.  (The `AddressType` assertions are not modelled:
addresses are bare `Nat`s here.) -/
def initContract (contract_address token_a_address token_b_address swap_fee_per_mille : Nat) :
    Option LiquiditySwapContractState :=
  if token_a_address = token_b_address then none
  else if swap_fee_per_mille ≤ 1000 then
    some { contract := contract_address, token_a_address := token_a_address,
           token_b_address := token_b_address, swap_fee_per_mille := swap_fee_per_mille,
           token_balances := [] }
  else none

/-- `deposit_callback` (source lines 382-394): asserts the transfer
succeeded, then credits the callback's sender. -/
def deposit_callback (state : LiquiditySwapContractState) (sender : Nat) (success : Bool)
    (token : Token) (amount : Nat) : Option LiquiditySwapContractState :=
  if success then some (add_to_token_balance state sender token amount) else none

/-- `swap` (source lines 414-443). -/
def swap (state : LiquiditySwapContractState) (sender token_address amount : Nat) :
    Option LiquiditySwapContractState := do
  if contract_pools_have_liquidity state then
    let (provided_token, opposite_token) ← deduce_provided_opposite_tokens state token_address
    let contract_token_balance := get_balance_for state state.contract
    let opposite_token_amount ← calculate_swap_to_amount
      (contract_token_balance.get_amount_of provided_token)
      (contract_token_balance.get_amount_of opposite_token)
      amount state.swap_fee_per_mille
    let state1 ← move_tokens state sender state.contract provided_token amount
    move_tokens state1 state1.contract sender opposite_token opposite_token_amount
  else none

/-- The ledger effect of `withdraw` (source lines 466-484): the optimistic
pre-debit; the outbound transfer event is external. -/
def withdraw (state : LiquiditySwapContractState) (sender token_address amount : Nat) :
    Option LiquiditySwapContractState := do
  let (provided_token, _) ← deduce_provided_opposite_tokens state token_address
  deduct_from_token_balance state sender provided_token amount

/-- `provide_liquidity_internal` (source lines 778-794). -/
def provide_liquidity_internal (state : LiquiditySwapContractState) (user : Nat)
    (provided_token_address provided_amount opposite_amount minted_liquidity_tokens : Nat) :
    Option LiquiditySwapContractState := do
  let (provided_token, opposite_token) ←
    deduce_provided_opposite_tokens state provided_token_address
  let state1 ← move_tokens state user state.contract provided_token provided_amount
  let state2 ← move_tokens state1 user state1.contract opposite_token opposite_amount
  some (add_to_token_balance
    (add_to_token_balance state2 user Token.LiquidityToken minted_liquidity_tokens)
    state2.contract Token.LiquidityToken minted_liquidity_tokens)

/-- `provide_liquidity` (source lines 503-533). -/
def provide_liquidity (state : LiquiditySwapContractState) (sender token_address amount : Nat) :
    Option LiquiditySwapContractState := do
  let (provided_token, opposite_token) ← deduce_provided_opposite_tokens state token_address
  let contract_token_balance := get_balance_for state state.contract
  let (opposite_equivalent, minted_liquidity_tokens) ← calculate_equivalent_and_minted_tokens
    amount (contract_token_balance.get_amount_of provided_token)
    (contract_token_balance.get_amount_of opposite_token)
    contract_token_balance.liquidity_tokens
  if 0 < minted_liquidity_tokens then
    provide_liquidity_internal state sender token_address amount opposite_equivalent
      minted_liquidity_tokens
  else none

/-- `reclaim_liquidity` (source lines 554-577). -/
def reclaim_liquidity (state : LiquiditySwapContractState) (sender liquidity_token_amount : Nat) :
    Option LiquiditySwapContractState := do
  let state1 ← deduct_from_token_balance state sender Token.LiquidityToken liquidity_token_amount
  let contract_token_balance := get_balance_for state1 state1.contract
  let (a_output, b_output) ← calculate_reclaim_output liquidity_token_amount
    contract_token_balance.a_tokens contract_token_balance.b_tokens
    contract_token_balance.liquidity_tokens
  let state2 ← move_tokens state1 state1.contract sender Token.TokenA a_output
  let state3 ← move_tokens state2 state2.contract sender Token.TokenB b_output
  deduct_from_token_balance state3 state3.contract Token.LiquidityToken liquidity_token_amount

/-- `provide_initial_liquidity` (source lines 598-625). -/
def provide_initial_liquidity (state : LiquiditySwapContractState)
    (sender token_a_amount token_b_amount : Nat) : Option LiquiditySwapContractState :=
  if contract_pools_have_liquidity state then none
  else
    let minted_liquidity_tokens := initial_liquidity_tokens token_a_amount token_b_amount
    if 0 < minted_liquidity_tokens then
      provide_liquidity_internal state sender state.token_a_address token_a_amount
        token_b_amount minted_liquidity_tokens
    else none

/-! ## Reachability

One step per public ledger-mutating operation.  The runtime invokes the
contract with `context.sender` equal to the signing account or calling
contract, never the swap contract's own address, hence the `sender ≠
state.contract` side condition. -/

/-- One public operation applied successfully. -/
inductive Step : LiquiditySwapContractState → LiquiditySwapContractState → Prop where
  | of_deposit_callback (state : LiquiditySwapContractState) (sender : Nat) (token : Token)
      (amount : Nat) (state' : LiquiditySwapContractState)
      (hs : sender ≠ state.contract)
      (h : deposit_callback state sender true token amount = some state') : Step state state'
  | of_swap (state : LiquiditySwapContractState) (sender token_address amount : Nat)
      (state' : LiquiditySwapContractState)
      (hs : sender ≠ state.contract)
      (h : swap state sender token_address amount = some state') : Step state state'
  | of_withdraw (state : LiquiditySwapContractState) (sender token_address amount : Nat)
      (state' : LiquiditySwapContractState)
      (hs : sender ≠ state.contract)
      (h : withdraw state sender token_address amount = some state') : Step state state'
  | of_provide_liquidity (state : LiquiditySwapContractState) (sender token_address amount : Nat)
      (state' : LiquiditySwapContractState)
      (hs : sender ≠ state.contract)
      (h : provide_liquidity state sender token_address amount = some state') : Step state state'
  | of_reclaim_liquidity (state : LiquiditySwapContractState) (sender liquidity_token_amount : Nat)
      (state' : LiquiditySwapContractState)
      (hs : sender ≠ state.contract)
      (h : reclaim_liquidity state sender liquidity_token_amount = some state') : Step state state'
  | of_provide_initial_liquidity (state : LiquiditySwapContractState)
      (sender token_a_amount token_b_amount : Nat) (state' : LiquiditySwapContractState)
      (hs : sender ≠ state.contract)
      (h : provide_initial_liquidity state sender token_a_amount token_b_amount = some state') :
      Step state state'

/-- States reachable from a freshly initialized contract (empty ledger) by
any sequence of successful public operations. -/
inductive Reachable : LiquiditySwapContractState → Prop where
  | base (c ta tb fee : Nat) (state : LiquiditySwapContractState)
      (h : initContract c ta tb fee = some state) : Reachable state
  | step (state state' : LiquiditySwapContractState)
      (hr : Reachable state) (h : Step state state') : Reachable state'

/-- The pool's A reserve: the `a_tokens` field of the contract's own entry. -/
def poolA (state : LiquiditySwapContractState) : Nat :=
  (get_balance_for state state.contract).a_tokens

/-- The pool's B reserve. -/
def poolB (state : LiquiditySwapContractState) : Nat :=
  (get_balance_for state state.contract).b_tokens

/-- The pool's total minted liquidity-share supply. -/
def poolLiquidity (state : LiquiditySwapContractState) : Nat :=
  (get_balance_for state state.contract).liquidity_tokens

/-- An explicit all-zero entry in the `token_balances` map. -/
def hasZeroEntry (state : LiquiditySwapContractState) : Prop :=
  ∃ e ∈ state.token_balances, e.2.user_has_no_tokens = true

/-- No explicit entry of the `token_balances` map is the all-zero record. -/
def noZeroEntries (state : LiquiditySwapContractState) : Prop :=
  ∀ e ∈ state.token_balances, e.2.user_has_no_tokens = false

/-- The immutable configuration of a state. -/
def config (state : LiquiditySwapContractState) : Nat × Nat × Nat × Nat :=
  (state.contract, state.token_a_address, state.token_b_address, state.swap_fee_per_mille)

/-- The pool-shape invariant: a reserve is zero exactly when the other one is. -/
def PoolShape (state : LiquiditySwapContractState) : Prop :=
  poolA state = 0 ↔ poolB state = 0

/-! # Lemmas -/

/-! ## Square-root correctness -/

/-- The binary-search loop returns the rounded-down square root whenever the
invariant `l² ≤ y < r²` holds and the fuel covers the interval. -/
theorem sqrtLoopF_isSqrt : ∀ (fuel y l r : Nat), l < r → r - l ≤ fuel + 1 → l * l ≤ y →
    y < r * r → sqrtLoopF fuel y l r * sqrtLoopF fuel y l r ≤ y ∧
      y < (sqrtLoopF fuel y l r + 1) * (sqrtLoopF fuel y l r + 1) := by
  intro fuel
  induction fuel with
  | zero =>
    intro y l r h1 h2 h3 h4
    have hr : r = l + 1 := by omega
    subst hr
    simpa [sqrtLoopF] using ⟨h3, h4⟩
  | succ n ih =>
    intro y l r h1 h2 h3 h4
    by_cases hc : l = r - 1
    · have hr : r = l + 1 := by omega
      subst hr
      simpa [sqrtLoopF] using ⟨h3, h4⟩
    · have h5 : l + 2 ≤ r := by omega
      have hm1 : l < (l + r) / 2 := by omega
      have hm2 : (l + r) / 2 < r := by omega
      by_cases hmy : (l + r) / 2 * ((l + r) / 2) ≤ y
      · have hrec := ih y ((l + r) / 2) r hm2 (by omega) hmy h4
        simpa [sqrtLoopF, hc, hmy] using hrec
      · have hy : y < (l + r) / 2 * ((l + r) / 2) := by omega
        have hrec := ih y l ((l + r) / 2) hm1 (by omega) h3 hy
        simpa [sqrtLoopF, hc, hmy] using hrec

/-- `u128_sqrt y` squared is at most `y`, and `y` is below the next square. -/
theorem u128_sqrt_spec (y : Nat) :
    u128_sqrt y * u128_sqrt y ≤ y ∧ y < (u128_sqrt y + 1) * (u128_sqrt y + 1) := by
  have h := sqrtLoopF_isSqrt (y + 1) y 0 (y + 1) (by omega) (by omega) (by omega) (by nlinarith)
  simpa [u128_sqrt] using h

/-- `u128_sqrt y` is the largest number whose square is at most `y`. -/
theorem le_u128_sqrt_of_sq_le {y z : Nat} (h : z * z ≤ y) : z ≤ u128_sqrt y := by
  by_contra hlt
  push_neg at hlt
  have h1 : u128_sqrt y + 1 ≤ z := hlt
  have h2 := (u128_sqrt_spec y).2
  have h3 : (u128_sqrt y + 1) * (u128_sqrt y + 1) ≤ z * z := Nat.mul_le_mul h1 h1
  omega

/-- `u128_sqrt` is positive exactly when its argument is. -/
theorem u128_sqrt_pos {y : Nat} (h : 0 < u128_sqrt y) : 0 < y := by
  have h1 := (u128_sqrt_spec y).1
  nlinarith

/-! ## Checked arithmetic -/

@[simp] theorem chkAdd_eq_some {a b c : Nat} :
    chkAdd a b = some c ↔ a + b < U128_LIMIT ∧ c = a + b := by
  unfold chkAdd
  split <;> simp_all [eq_comm]

@[simp] theorem chkSub_eq_some {a b c : Nat} :
    chkSub a b = some c ↔ b ≤ a ∧ c = a - b := by
  unfold chkSub
  split <;> simp_all [eq_comm]

@[simp] theorem chkMul_eq_some {a b c : Nat} :
    chkMul a b = some c ↔ a * b < U128_LIMIT ∧ c = a * b := by
  unfold chkMul
  split <;> simp_all [eq_comm]

@[simp] theorem chkDiv_eq_some {a b c : Nat} :
    chkDiv a b = some c ↔ b ≠ 0 ∧ c = a / b := by
  unfold chkDiv
  split <;> simp_all [eq_comm]

/-- The checked square-root loop refines the exact one: whenever it returns
a value, the exact loop returns the same value. -/
theorem sqrtLoopC_some : ∀ (fuel y l r v : Nat), sqrtLoopC fuel y l r = some v →
    sqrtLoopF fuel y l r = v := by
  intro fuel
  induction fuel with
  | zero =>
    intro y l r v h
    simp only [sqrtLoopC, Option.some_inj] at h
    simpa [sqrtLoopF] using h
  | succ n ih =>
    intro y l r v h
    by_cases hc : l = r - 1
    · rw [sqrtLoopC, if_pos hc] at h
      rw [sqrtLoopF, if_pos hc]
      exact Option.some_inj.mp h
    · rw [sqrtLoopC, if_neg hc] at h
      split at h
      next => exact absurd h (by simp)
      next s hadd =>
        obtain ⟨-, rfl⟩ := chkAdd_eq_some.mp hadd
        split at h
        next => exact absurd h (by simp)
        next mm hmul =>
          obtain ⟨-, rfl⟩ := chkMul_eq_some.mp hmul
          rw [sqrtLoopF, if_neg hc]
          by_cases hmy : (l + r) / 2 * ((l + r) / 2) ≤ y
          · rw [if_pos hmy] at h
            simpa [hmy] using ih y ((l + r) / 2) r v h
          · rw [if_neg hmy] at h
            simpa [hmy] using ih y l ((l + r) / 2) v h

/-- Checked `u128_sqrt` refinement: a returned value is the exact square root. -/
theorem u128_sqrt_checked_some {y v : Nat} (h : u128_sqrt_checked y = some v) :
    v = u128_sqrt y := by
  unfold u128_sqrt_checked at h
  rcases hadd : chkAdd y 1 with _ | r
  · rw [hadd] at h
    exact absurd h (by simp)
  · rw [hadd] at h
    obtain ⟨-, rfl⟩ := chkAdd_eq_some.mp hadd
    exact (sqrtLoopC_some (y + 1) y 0 (y + 1) v h).symm

/-- Unfolding lemma for a positive-fuel step of the checked loop. -/
theorem sqrtLoopC_succ (fuel y l r : Nat) : sqrtLoopC (fuel + 1) y l r =
    if l = r - 1 then some l
    else
      match chkAdd l r with
      | none => none
      | some s =>
        match chkMul (s / 2) (s / 2) with
        | none => none
        | some mm =>
          if mm ≤ y then sqrtLoopC fuel y (s / 2) r
          else sqrtLoopC fuel y l (s / 2) := rfl

/-- Checked `u128_sqrt` aborts on every argument of 65 bits or more: either
`y + 1` itself overflows, or the first midpoint `m = (y + 1) / 2` has
`m * m ≥ 2 ^ 128`. -/
theorem u128_sqrt_checked_overflow {y : Nat} (h : 2 ^ 65 - 1 ≤ y) :
    u128_sqrt_checked y = none := by
  unfold u128_sqrt_checked
  rcases hadd : chkAdd y 1 with _ | r
  · rfl
  · obtain ⟨hy, rfl⟩ := chkAdd_eq_some.mp hadd
    show sqrtLoopC (y + 1) y 0 (y + 1) = none
    rw [sqrtLoopC_succ]
    have h0 : ¬(0 = y + 1 - 1) := by omega
    rw [if_neg h0]
    split
    next => rfl
    next s hadd2 =>
      obtain ⟨-, rfl⟩ := chkAdd_eq_some.mp hadd2
      have hm : 2 ^ 64 ≤ (0 + (y + 1)) / 2 := by omega
      have hmul : chkMul ((0 + (y + 1)) / 2) ((0 + (y + 1)) / 2) = none := by
        unfold chkMul
        rw [if_neg]
        push_neg
        calc U128_LIMIT = 2 ^ 64 * 2 ^ 64 := by norm_num [U128_LIMIT]
          _ ≤ (0 + (y + 1)) / 2 * ((0 + (y + 1)) / 2) := Nat.mul_le_mul hm hm
      split
      next => rfl
      next mm hmul2 =>
        rw [hmul] at hmul2
        exact absurd hmul2 (by simp)

/-- Inversion for the checked swap pricing: a returned value certifies that
every intermediate product and sum fits in a `u128` and that the exact
function returns the same value. -/
theorem calculate_swap_to_amount_checked_inv {f t a fee v : Nat}
    (h : calculate_swap_to_amount_checked f t a fee = some v) :
    fee ≤ 1000 ∧ (1000 - fee) * a < U128_LIMIT ∧ (1000 - fee) * a * t < U128_LIMIT ∧
      1000 * f < U128_LIMIT ∧ 1000 * f + (1000 - fee) * a < U128_LIMIT ∧
      calculate_swap_to_amount f t a fee = some v := by
  unfold calculate_swap_to_amount_checked at h
  simp only [bind, Option.bind_eq_some, chkSub_eq_some, chkMul_eq_some, chkAdd_eq_some,
    chkDiv_eq_some] at h
  obtain ⟨k, ⟨hfee, rfl⟩, n1, ⟨hb1, rfl⟩, n2, ⟨hb2, rfl⟩, d1, ⟨hb3, rfl⟩, d2, ⟨hb4, rfl⟩,
    dd, ⟨hb5, rfl⟩, hdz, rfl⟩ := h
  refine ⟨hfee, hb1, hb2, hb3, hb5, ?_⟩
  unfold calculate_swap_to_amount
  rw [if_neg hdz]

/-- Inversion for the checked liquidity-provision pricing. -/
theorem calculate_equivalent_and_minted_tokens_checked_inv {pa p o l : Nat} {q : Nat × Nat}
    (h : calculate_equivalent_and_minted_tokens_checked pa p o l = some q) :
    p ≠ 0 ∧ pa * o < U128_LIMIT ∧ pa * l < U128_LIMIT ∧
      calculate_equivalent_and_minted_tokens pa p o l = some q := by
  unfold calculate_equivalent_and_minted_tokens_checked at h
  by_cases hpa : pa > 0
  · rw [if_pos hpa] at h
    simp [bind, Option.bind_eq_some] at h
    obtain ⟨t1, ⟨hb1, rfl⟩, t2, ⟨hp, rfl⟩, oe, ⟨hb2, rfl⟩, m1, ⟨hb3, rfl⟩, m, ⟨hp2, rfl⟩, rfl⟩ := h
    refine ⟨hp, hb1, hb3, ?_⟩
    unfold calculate_equivalent_and_minted_tokens
    rw [if_neg hp, if_pos hpa]
  · rw [if_neg hpa] at h
    simp [bind, Option.bind_eq_some] at h
    obtain ⟨m1, ⟨hb3, rfl⟩, m, ⟨hp2, rfl⟩, rfl⟩ := h
    have hpa0 : pa = 0 := by omega
    subst hpa0
    have hLpos : 0 < U128_LIMIT := by norm_num [U128_LIMIT]
    refine ⟨hp2, by simpa using hLpos, by simpa using hLpos, ?_⟩
    unfold calculate_equivalent_and_minted_tokens
    rw [if_neg hp2]
    simp

/-- Inversion for the checked reclaim pricing. -/
theorem calculate_reclaim_output_checked_inv {lta a b m : Nat} {q : Nat × Nat}
    (h : calculate_reclaim_output_checked lta a b m = some q) :
    m ≠ 0 ∧ a * lta < U128_LIMIT ∧ b * lta < U128_LIMIT ∧
      calculate_reclaim_output lta a b m = some q := by
  unfold calculate_reclaim_output_checked at h
  simp only [bind, Option.bind_eq_some, chkMul_eq_some, chkDiv_eq_some, Option.some_inj] at h
  obtain ⟨t1, ⟨hb1, rfl⟩, ao, ⟨hm, rfl⟩, t2, ⟨hb2, rfl⟩, bo, ⟨hm2, rfl⟩, rfl⟩ := h
  refine ⟨hm, hb1, hb2, ?_⟩
  unfold calculate_reclaim_output
  rw [if_neg hm]

/-! ## Balance-record lemmas -/

@[simp] theorem get_amount_of_a (tb : TokenBalance) :
    tb.get_amount_of Token.TokenA = tb.a_tokens := rfl

@[simp] theorem get_amount_of_b (tb : TokenBalance) :
    tb.get_amount_of Token.TokenB = tb.b_tokens := rfl

@[simp] theorem get_amount_of_liq (tb : TokenBalance) :
    tb.get_amount_of Token.LiquidityToken = tb.liquidity_tokens := rfl

@[simp] theorem set_amount_of_a (tb : TokenBalance) (v : Nat) :
    tb.set_amount_of Token.TokenA v = { tb with a_tokens := v } := rfl

@[simp] theorem set_amount_of_b (tb : TokenBalance) (v : Nat) :
    tb.set_amount_of Token.TokenB v = { tb with b_tokens := v } := rfl

@[simp] theorem set_amount_of_liq (tb : TokenBalance) (v : Nat) :
    tb.set_amount_of Token.LiquidityToken v = { tb with liquidity_tokens := v } := rfl

theorem get_set_same (tb : TokenBalance) (token : Token) (v : Nat) :
    (tb.set_amount_of token v).get_amount_of token = v := by
  cases token <;> rfl

theorem get_set_ne (tb : TokenBalance) {token token' : Token} (h : token' ≠ token) (v : Nat) :
    (tb.set_amount_of token v).get_amount_of token' = tb.get_amount_of token' := by
  cases token <;> cases token' <;> first | rfl | exact absurd rfl h

theorem user_has_no_tokens_iff (tb : TokenBalance) :
    tb.user_has_no_tokens = true ↔ tb.a_tokens = 0 ∧ tb.b_tokens = 0 ∧ tb.liquidity_tokens = 0 := by
  simp [TokenBalance.user_has_no_tokens, and_assoc]

theorem eq_empty_of_no_tokens {tb : TokenBalance} (h : tb.user_has_no_tokens = true) :
    tb = EMPTY_BALANCE := by
  obtain ⟨h1, h2, h3⟩ := (user_has_no_tokens_iff tb).mp h
  cases tb
  simp_all [EMPTY_BALANCE]

/-- Setting a field to a non-zero value never produces the all-zero record. -/
theorem set_pos_not_empty (tb : TokenBalance) (token : Token) {v : Nat} (hv : 0 < v) :
    (tb.set_amount_of token v).user_has_no_tokens = false := by
  cases token <;> simp [TokenBalance.set_amount_of, TokenBalance.user_has_no_tokens] <;> omega

/-! ## Ledger-map lemmas -/

theorem lookupBal_setBal (lg : List (Nat × TokenBalance)) (u v : Nat) (tb : TokenBalance) :
    lookupBal (setBal lg u tb) v = if u = v then some tb else lookupBal lg v := by
  induction lg with
  | nil => simp [setBal, lookupBal]
  | cons e rest ih =>
    by_cases he : e.1 = u
    · rw [setBal, if_pos he]
      by_cases huv : u = v
      · simp [lookupBal, huv]
      · have hev : ¬e.1 = v := by omega
        simp [lookupBal, huv, hev]
    · rw [setBal, if_neg he]
      by_cases hev : e.1 = v
      · have huv : ¬u = v := by omega
        simp [lookupBal, hev, huv]
      · simp [lookupBal, hev, ih]

theorem lookupBal_removeBal (lg : List (Nat × TokenBalance)) (u v : Nat) :
    lookupBal (removeBal lg u) v = if u = v then none else lookupBal lg v := by
  induction lg with
  | nil => simp [removeBal, lookupBal]
  | cons e rest ih =>
    by_cases he : e.1 = u
    · rw [removeBal, if_pos he]
      rw [ih]
      by_cases huv : u = v
      · simp [huv]
      · rw [if_neg huv, if_neg huv, lookupBal, if_neg (by omega : ¬e.1 = v)]
    · rw [removeBal, if_neg he]
      by_cases hev : e.1 = v
      · have huv : ¬u = v := by omega
        simp [lookupBal, hev, huv]
      · simp [lookupBal, hev, ih]

theorem mem_setBal {lg : List (Nat × TokenBalance)} {u : Nat} {tb : TokenBalance}
    {e : Nat × TokenBalance} (h : e ∈ setBal lg u tb) : e = (u, tb) ∨ e ∈ lg := by
  induction lg with
  | nil => simpa [setBal] using h
  | cons e0 rest ih =>
    rw [setBal] at h
    split at h
    · rcases List.mem_cons.mp h with h1 | h1
      · exact Or.inl h1
      · exact Or.inr (List.mem_cons_of_mem _ h1)
    · rcases List.mem_cons.mp h with h1 | h1
      · exact Or.inr (h1 ▸ List.mem_cons_self _ _)
      · rcases ih h1 with h2 | h2
        · exact Or.inl h2
        · exact Or.inr (List.mem_cons_of_mem _ h2)

theorem mem_removeBal {lg : List (Nat × TokenBalance)} {u : Nat} {e : Nat × TokenBalance}
    (h : e ∈ removeBal lg u) : e ∈ lg ∧ e.1 ≠ u := by
  induction lg with
  | nil => simp [removeBal] at h
  | cons e0 rest ih =>
    rw [removeBal] at h
    split at h
    · exact ⟨List.mem_cons_of_mem _ (ih h).1, (ih h).2⟩
    · rcases List.mem_cons.mp h with h1 | h1
      · rename_i hne
        subst h1
        exact ⟨List.mem_cons_self _ _, hne⟩
      · exact ⟨List.mem_cons_of_mem _ (ih h1).1, (ih h1).2⟩

/-! ## Ledger-operation lemmas -/

@[simp] theorem add_contract (state : LiquiditySwapContractState) (u : Nat) (token : Token)
    (amount : Nat) : (add_to_token_balance state u token amount).contract = state.contract := rfl

@[simp] theorem add_token_a (state : LiquiditySwapContractState) (u : Nat) (token : Token)
    (amount : Nat) :
    (add_to_token_balance state u token amount).token_a_address = state.token_a_address := rfl

@[simp] theorem add_token_b (state : LiquiditySwapContractState) (u : Nat) (token : Token)
    (amount : Nat) :
    (add_to_token_balance state u token amount).token_b_address = state.token_b_address := rfl

@[simp] theorem add_fee (state : LiquiditySwapContractState) (u : Nat) (token : Token)
    (amount : Nat) :
    (add_to_token_balance state u token amount).swap_fee_per_mille = state.swap_fee_per_mille := rfl

theorem get_balance_for_add_self (state : LiquiditySwapContractState) (u : Nat) (token : Token)
    (amount : Nat) : get_balance_for (add_to_token_balance state u token amount) u =
      (get_balance_for state u).set_amount_of token
        ((get_balance_for state u).get_amount_of token + amount) := by
  simp [get_balance_for, add_to_token_balance, lookupBal_setBal]

theorem get_balance_for_add_ne (state : LiquiditySwapContractState) {u v : Nat} (token : Token)
    (amount : Nat) (h : v ≠ u) :
    get_balance_for (add_to_token_balance state u token amount) v = get_balance_for state v := by
  have huv : ¬u = v := by omega
  simp [get_balance_for, add_to_token_balance, lookupBal_setBal, huv]

theorem lookupBal_add_ne (state : LiquiditySwapContractState) {u v : Nat} (token : Token)
    (amount : Nat) (h : v ≠ u) :
    lookupBal (add_to_token_balance state u token amount).token_balances v =
      lookupBal state.token_balances v := by
  have huv : ¬u = v := by omega
  simp [add_to_token_balance, lookupBal_setBal, huv]

/-- Inversion for a successful deduction. -/
theorem deduct_eq_some_inv {state : LiquiditySwapContractState} {u : Nat} {token : Token}
    {amount : Nat} {state' : LiquiditySwapContractState}
    (h : deduct_from_token_balance state u token amount = some state') :
    amount ≤ (get_balance_for state u).get_amount_of token := by
  simp only [deduct_from_token_balance] at h
  by_cases hle : amount ≤ (get_balance_for state u).get_amount_of token
  · exact hle
  · rw [if_neg hle] at h
    exact absurd h (by simp)

/-- A successful deduction succeeds exactly on sufficient funds. -/
theorem deduct_isSome (state : LiquiditySwapContractState) (u : Nat) (token : Token)
    (amount : Nat) (hle : amount ≤ (get_balance_for state u).get_amount_of token) :
    deduct_from_token_balance state u token amount ≠ none := by
  simp only [deduct_from_token_balance]
  rw [if_pos hle]
  simp

@[simp] theorem deduct_contract {state : LiquiditySwapContractState} {u : Nat} {token : Token}
    {amount : Nat} {state' : LiquiditySwapContractState}
    (h : deduct_from_token_balance state u token amount = some state') :
    state'.contract = state.contract := by
  simp only [deduct_from_token_balance] at h
  split at h
  · rw [← Option.some_inj.mp h]
    split <;> rfl
  · exact absurd h (by simp)

theorem deduct_config {state : LiquiditySwapContractState} {u : Nat} {token : Token}
    {amount : Nat} {state' : LiquiditySwapContractState}
    (h : deduct_from_token_balance state u token amount = some state') :
    state'.token_a_address = state.token_a_address ∧
      state'.token_b_address = state.token_b_address ∧
      state'.swap_fee_per_mille = state.swap_fee_per_mille := by
  simp only [deduct_from_token_balance] at h
  split at h
  · rw [← Option.some_inj.mp h]
    split <;> exact ⟨rfl, rfl, rfl⟩
  · exact absurd h (by simp)

/-- After a successful deduction the deducted user's balance (viewed through
the absent-means-empty lens) is the old one with the field decreased: if the
resulting record is all-zero, the entry is removed and the default record is
the same all-zero record. -/
theorem get_balance_for_deduct_self {state : LiquiditySwapContractState} {u : Nat} {token : Token}
    {amount : Nat} {state' : LiquiditySwapContractState}
    (h : deduct_from_token_balance state u token amount = some state') :
    get_balance_for state' u = (get_balance_for state u).set_amount_of token
      ((get_balance_for state u).get_amount_of token - amount) := by
  simp only [deduct_from_token_balance] at h
  split at h
  · rw [← Option.some_inj.mp h]
    split
    · rename_i hz
      simp [get_balance_for, lookupBal_removeBal]
      exact (eq_empty_of_no_tokens hz).symm
    · simp [get_balance_for, lookupBal_setBal]
  · exact absurd h (by simp)

theorem get_balance_for_deduct_ne {state : LiquiditySwapContractState} {u v : Nat} {token : Token}
    {amount : Nat} {state' : LiquiditySwapContractState}
    (h : deduct_from_token_balance state u token amount = some state') (hv : v ≠ u) :
    get_balance_for state' v = get_balance_for state v := by
  have huv : ¬u = v := by omega
  simp only [deduct_from_token_balance] at h
  split at h
  · rw [← Option.some_inj.mp h]
    split
    · simp [get_balance_for, lookupBal_removeBal, lookupBal_setBal, huv]
    · simp [get_balance_for, lookupBal_setBal, huv]
  · exact absurd h (by simp)

theorem lookupBal_deduct_ne {state : LiquiditySwapContractState} {u v : Nat} {token : Token}
    {amount : Nat} {state' : LiquiditySwapContractState}
    (h : deduct_from_token_balance state u token amount = some state') (hv : v ≠ u) :
    lookupBal state'.token_balances v = lookupBal state.token_balances v := by
  have huv : ¬u = v := by omega
  simp only [deduct_from_token_balance] at h
  split at h
  · rw [← Option.some_inj.mp h]
    split
    · simp [lookupBal_removeBal, lookupBal_setBal, huv]
    · simp [lookupBal_setBal, huv]
  · exact absurd h (by simp)

/-- After a successful deduction the deducted user's entry is either gone or
records the decreased balance; in particular it is never the all-zero record. -/
theorem lookupBal_deduct_self {state : LiquiditySwapContractState} {u : Nat} {token : Token}
    {amount : Nat} {state' : LiquiditySwapContractState}
    (h : deduct_from_token_balance state u token amount = some state') {tb : TokenBalance}
    (hl : lookupBal state'.token_balances u = some tb) : tb.user_has_no_tokens = false := by
  simp only [deduct_from_token_balance] at h
  split at h
  · rw [← Option.some_inj.mp h] at hl
    split at hl
    · simp [lookupBal_removeBal] at hl
    · rename_i hz
      simp [lookupBal_setBal] at hl
      rw [← hl]
      exact Bool.not_eq_true _ |>.mp hz
  · exact absurd h (by simp)

/-! ## Operation-effect lemmas -/

theorem config_contract {s s' : LiquiditySwapContractState} (h : config s' = config s) :
    s'.contract = s.contract := congrArg Prod.fst h

theorem config_token_a {s s' : LiquiditySwapContractState} (h : config s' = config s) :
    s'.token_a_address = s.token_a_address := congrArg (fun p => p.2.1) h

theorem config_token_b {s s' : LiquiditySwapContractState} (h : config s' = config s) :
    s'.token_b_address = s.token_b_address := congrArg (fun p => p.2.2.1) h

theorem config_fee {s s' : LiquiditySwapContractState} (h : config s' = config s) :
    s'.swap_fee_per_mille = s.swap_fee_per_mille := congrArg (fun p => p.2.2.2) h

@[simp] theorem config_add (state : LiquiditySwapContractState) (u : Nat) (token : Token)
    (amount : Nat) : config (add_to_token_balance state u token amount) = config state := rfl

theorem config_deduct {state : LiquiditySwapContractState} {u : Nat} {token : Token}
    {amount : Nat} {state' : LiquiditySwapContractState}
    (h : deduct_from_token_balance state u token amount = some state') :
    config state' = config state := by
  obtain ⟨h1, h2, h3⟩ := deduct_config h
  unfold config
  rw [deduct_contract h, h1, h2, h3]

theorem move_eq_some_inv {state : LiquiditySwapContractState} {from_addr to_addr : Nat}
    {token : Token} {amount : Nat} {state' : LiquiditySwapContractState}
    (h : move_tokens state from_addr to_addr token amount = some state') :
    ∃ s2, deduct_from_token_balance state from_addr token amount = some s2 ∧
      state' = add_to_token_balance s2 to_addr token amount := by
  unfold move_tokens at h
  obtain ⟨s2, h1, h2⟩ := Option.map_eq_some'.mp h
  exact ⟨s2, h1, h2.symm⟩

theorem config_move {state : LiquiditySwapContractState} {from_addr to_addr : Nat}
    {token : Token} {amount : Nat} {state' : LiquiditySwapContractState}
    (h : move_tokens state from_addr to_addr token amount = some state') :
    config state' = config state := by
  obtain ⟨s2, h1, rfl⟩ := move_eq_some_inv h
  rw [config_add]
  exact config_deduct h1

theorem move_balance_from {state : LiquiditySwapContractState} {from_addr to_addr : Nat}
    {token : Token} {amount : Nat} {state' : LiquiditySwapContractState}
    (h : move_tokens state from_addr to_addr token amount = some state')
    (hne : to_addr ≠ from_addr) :
    get_balance_for state' from_addr = (get_balance_for state from_addr).set_amount_of token
      ((get_balance_for state from_addr).get_amount_of token - amount) := by
  obtain ⟨s2, h1, rfl⟩ := move_eq_some_inv h
  rw [get_balance_for_add_ne _ _ _ (fun hx => hne hx.symm)]
  exact get_balance_for_deduct_self h1

theorem move_balance_to {state : LiquiditySwapContractState} {from_addr to_addr : Nat}
    {token : Token} {amount : Nat} {state' : LiquiditySwapContractState}
    (h : move_tokens state from_addr to_addr token amount = some state')
    (hne : to_addr ≠ from_addr) :
    get_balance_for state' to_addr = (get_balance_for state to_addr).set_amount_of token
      ((get_balance_for state to_addr).get_amount_of token + amount) := by
  obtain ⟨s2, h1, rfl⟩ := move_eq_some_inv h
  rw [get_balance_for_add_self, get_balance_for_deduct_ne h1 hne]

theorem move_balance_other {state : LiquiditySwapContractState} {from_addr to_addr v : Nat}
    {token : Token} {amount : Nat} {state' : LiquiditySwapContractState}
    (h : move_tokens state from_addr to_addr token amount = some state')
    (h1 : v ≠ from_addr) (h2 : v ≠ to_addr) :
    get_balance_for state' v = get_balance_for state v := by
  obtain ⟨s2, hd, rfl⟩ := move_eq_some_inv h
  rw [get_balance_for_add_ne _ _ _ h2, get_balance_for_deduct_ne hd h1]

theorem move_requires {state : LiquiditySwapContractState} {from_addr to_addr : Nat}
    {token : Token} {amount : Nat} {state' : LiquiditySwapContractState}
    (h : move_tokens state from_addr to_addr token amount = some state') :
    amount ≤ (get_balance_for state from_addr).get_amount_of token := by
  obtain ⟨s2, hd, rfl⟩ := move_eq_some_inv h
  exact deduct_eq_some_inv hd

/-- Inversion for `deduce_provided_opposite_tokens`. -/
theorem deduce_inv {state : LiquiditySwapContractState} {addr : Nat} {pt ot : Token}
    (h : deduce_provided_opposite_tokens state addr = some (pt, ot)) :
    (state.token_a_address = addr ∧ pt = Token.TokenA ∧ ot = Token.TokenB) ∨
      (state.token_b_address = addr ∧ pt = Token.TokenB ∧ ot = Token.TokenA) := by
  simp only [deduce_provided_opposite_tokens] at h
  split at h
  · exact absurd h (by simp)
  · rename_i hcond
    split at h
    · rename_i hpa
      obtain ⟨h1, h2⟩ := Prod.mk.injEq _ _ _ _ ▸ Option.some_inj.mp h
      exact Or.inl ⟨hpa, h1.symm, h2.symm⟩
    · rename_i hpa
      obtain ⟨h1, h2⟩ := Prod.mk.injEq _ _ _ _ ▸ Option.some_inj.mp h
      have hpb : state.token_b_address = addr := by tauto
      exact Or.inr ⟨hpb, h1.symm, h2.symm⟩

/-- A successful `deposit_callback` is exactly a ledger credit. -/
theorem deposit_callback_some {state : LiquiditySwapContractState} {sender : Nat} {token : Token}
    {amount : Nat} {state' : LiquiditySwapContractState}
    (h : deposit_callback state sender true token amount = some state') :
    state' = add_to_token_balance state sender token amount := by
  simp only [deposit_callback, if_pos] at h
  exact (Option.some_inj.mp h).symm

/-- The contract's own balance after a successful `swap`, together with the
pricing call it was computed from. -/
theorem swap_effect {state : LiquiditySwapContractState} {sender addr amount : Nat}
    {state' : LiquiditySwapContractState}
    (h : swap state sender addr amount = some state') (hs : sender ≠ state.contract) :
    config state' = config state ∧ contract_pools_have_liquidity state = true ∧
    ∃ pt ot out,
      deduce_provided_opposite_tokens state addr = some (pt, ot) ∧
      calculate_swap_to_amount ((get_balance_for state state.contract).get_amount_of pt)
        ((get_balance_for state state.contract).get_amount_of ot) amount
        state.swap_fee_per_mille = some out ∧
      ((pt = Token.TokenA ∧ ot = Token.TokenB ∧
          get_balance_for state' state.contract =
            ⟨(get_balance_for state state.contract).a_tokens + amount,
             (get_balance_for state state.contract).b_tokens - out,
             (get_balance_for state state.contract).liquidity_tokens⟩) ∨
        (pt = Token.TokenB ∧ ot = Token.TokenA ∧
          get_balance_for state' state.contract =
            ⟨(get_balance_for state state.contract).a_tokens - out,
             (get_balance_for state state.contract).b_tokens + amount,
             (get_balance_for state state.contract).liquidity_tokens⟩)) := by
  rw [swap] at h
  split at h
  · rename_i hliq
    obtain ⟨⟨pt, ot⟩, hded, h⟩ := Option.bind_eq_some.mp h
    obtain ⟨out, hout, h⟩ := Option.bind_eq_some.mp h
    obtain ⟨s1, hmv1, h⟩ := Option.bind_eq_some.mp h
    have hcfg1 : config s1 = config state := config_move hmv1
    rw [config_contract hcfg1] at h
    have hcfg2 : config state' = config state := (config_move h).trans hcfg1
    refine ⟨hcfg2, hliq, pt, ot, out, hded, hout, ?_⟩
    have hb1 : get_balance_for s1 state.contract =
        (get_balance_for state state.contract).set_amount_of pt
          ((get_balance_for state state.contract).get_amount_of pt + amount) :=
      move_balance_to hmv1 (fun hx => hs hx.symm)
    have hb2 : get_balance_for state' state.contract =
        (get_balance_for s1 state.contract).set_amount_of ot
          ((get_balance_for s1 state.contract).get_amount_of ot - out) :=
      move_balance_from h hs
    rcases deduce_inv hded with ⟨-, rfl, rfl⟩ | ⟨-, rfl, rfl⟩
    · refine Or.inl ⟨rfl, rfl, ?_⟩
      rw [hb2, hb1]
      simp
    · refine Or.inr ⟨rfl, rfl, ?_⟩
      rw [hb2, hb1]
      simp
  · exact absurd h (by simp)

/-- The contract's own balance after `provide_liquidity_internal`. -/
theorem provide_internal_effect {state : LiquiditySwapContractState}
    {user addr pa oa m : Nat} {state' : LiquiditySwapContractState}
    (h : provide_liquidity_internal state user addr pa oa m = some state')
    (hu : user ≠ state.contract) :
    config state' = config state ∧
    ∃ pt ot, deduce_provided_opposite_tokens state addr = some (pt, ot) ∧
      ((pt = Token.TokenA ∧ ot = Token.TokenB ∧
          get_balance_for state' state.contract =
            ⟨(get_balance_for state state.contract).a_tokens + pa,
             (get_balance_for state state.contract).b_tokens + oa,
             (get_balance_for state state.contract).liquidity_tokens + m⟩) ∨
        (pt = Token.TokenB ∧ ot = Token.TokenA ∧
          get_balance_for state' state.contract =
            ⟨(get_balance_for state state.contract).a_tokens + oa,
             (get_balance_for state state.contract).b_tokens + pa,
             (get_balance_for state state.contract).liquidity_tokens + m⟩)) := by
  rw [provide_liquidity_internal] at h
  obtain ⟨⟨pt, ot⟩, hded, h⟩ := Option.bind_eq_some.mp h
  obtain ⟨s1, hmv1, h⟩ := Option.bind_eq_some.mp h
  have hcfg1 : config s1 = config state := config_move hmv1
  rw [config_contract hcfg1] at h
  obtain ⟨s2, hmv2, h⟩ := Option.bind_eq_some.mp h
  have hcfg2 : config s2 = config state := (config_move hmv2).trans hcfg1
  rw [config_contract hcfg2] at h
  have hst : state' = add_to_token_balance
      (add_to_token_balance s2 user Token.LiquidityToken m) state.contract
      Token.LiquidityToken m := Option.some_inj.mp h.symm
  have hcfg : config state' = config state := by
    rw [hst, config_add, config_add]
    exact hcfg2
  refine ⟨hcfg, pt, ot, hded, ?_⟩
  have hb1 : get_balance_for s1 state.contract =
      (get_balance_for state state.contract).set_amount_of pt
        ((get_balance_for state state.contract).get_amount_of pt + pa) :=
    move_balance_to hmv1 (fun hx => hu hx.symm)
  have hb2 : get_balance_for s2 state.contract =
      (get_balance_for s1 state.contract).set_amount_of ot
        ((get_balance_for s1 state.contract).get_amount_of ot + oa) :=
    move_balance_to hmv2 (fun hx => hu hx.symm)
  have hb3 : get_balance_for state' state.contract =
      (get_balance_for s2 state.contract).set_amount_of Token.LiquidityToken
        ((get_balance_for s2 state.contract).get_amount_of Token.LiquidityToken + m) := by
    rw [hst, get_balance_for_add_self, get_balance_for_add_ne _ _ _ (fun hx => hu hx.symm)]
  rcases deduce_inv hded with ⟨-, rfl, rfl⟩ | ⟨-, rfl, rfl⟩
  · refine Or.inl ⟨rfl, rfl, ?_⟩
    rw [hb3, hb2, hb1]
    simp
  · refine Or.inr ⟨rfl, rfl, ?_⟩
    rw [hb3, hb2, hb1]
    simp

/-- Inversion for a successful `provide_liquidity`. -/
theorem provide_liquidity_effect {state : LiquiditySwapContractState} {sender addr amount : Nat}
    {state' : LiquiditySwapContractState}
    (h : provide_liquidity state sender addr amount = some state')
    (hs : sender ≠ state.contract) :
    config state' = config state ∧
    ∃ pt ot oe m, deduce_provided_opposite_tokens state addr = some (pt, ot) ∧
      calculate_equivalent_and_minted_tokens amount
        ((get_balance_for state state.contract).get_amount_of pt)
        ((get_balance_for state state.contract).get_amount_of ot)
        (get_balance_for state state.contract).liquidity_tokens = some (oe, m) ∧ 0 < m ∧
      ((pt = Token.TokenA ∧ ot = Token.TokenB ∧
          get_balance_for state' state.contract =
            ⟨(get_balance_for state state.contract).a_tokens + amount,
             (get_balance_for state state.contract).b_tokens + oe,
             (get_balance_for state state.contract).liquidity_tokens + m⟩) ∨
        (pt = Token.TokenB ∧ ot = Token.TokenA ∧
          get_balance_for state' state.contract =
            ⟨(get_balance_for state state.contract).a_tokens + oe,
             (get_balance_for state state.contract).b_tokens + amount,
             (get_balance_for state state.contract).liquidity_tokens + m⟩)) := by
  rw [provide_liquidity] at h
  obtain ⟨⟨pt, ot⟩, hded, h⟩ := Option.bind_eq_some.mp h
  obtain ⟨⟨oe, m⟩, hcalc, h⟩ := Option.bind_eq_some.mp h
  have h2 : (if 0 < m then provide_liquidity_internal state sender addr amount oe m
      else none) = some state' := h
  clear h
  split at h2
  · rename_i hm
    obtain ⟨hcfg, pt', ot', hded', heff⟩ := provide_internal_effect h2 hs
    rw [hded'] at hded
    obtain ⟨h1, h2⟩ := Prod.mk.injEq _ _ _ _ ▸ Option.some_inj.mp hded
    subst h1
    subst h2
    exact ⟨hcfg, pt', ot', oe, m, hded', hcalc, hm, heff⟩
  · exact absurd h2 (by simp)

/-- Inversion for a successful `reclaim_liquidity`. -/
theorem reclaim_effect {state : LiquiditySwapContractState} {sender lta : Nat}
    {state' : LiquiditySwapContractState}
    (h : reclaim_liquidity state sender lta = some state') (hs : sender ≠ state.contract) :
    config state' = config state ∧
    ∃ aout bout,
      calculate_reclaim_output lta (poolA state) (poolB state) (poolLiquidity state) =
        some (aout, bout) ∧
      aout ≤ poolA state ∧ bout ≤ poolB state ∧ lta ≤ poolLiquidity state ∧
      get_balance_for state' state.contract =
        ⟨poolA state - aout, poolB state - bout, poolLiquidity state - lta⟩ := by
  rw [reclaim_liquidity] at h
  obtain ⟨s1, hd1, h⟩ := Option.bind_eq_some.mp h
  have hcfg1 : config s1 = config state := config_deduct hd1
  rw [config_contract hcfg1] at h
  have hbal1 : get_balance_for s1 state.contract = get_balance_for state state.contract :=
    get_balance_for_deduct_ne hd1 (fun hx => hs hx.symm)
  rw [hbal1] at h
  obtain ⟨⟨aout, bout⟩, hcalc, h⟩ := Option.bind_eq_some.mp h
  obtain ⟨s2, hmv1, h⟩ := Option.bind_eq_some.mp h
  have hcfg2 : config s2 = config state := (config_move hmv1).trans hcfg1
  rw [config_contract hcfg2] at h
  obtain ⟨s3, hmv2, h⟩ := Option.bind_eq_some.mp h
  have hcfg3 : config s3 = config state := (config_move hmv2).trans hcfg2
  rw [config_contract hcfg3] at h
  have hcfg : config state' = config state := (config_deduct h).trans hcfg3
  have hbal2 : get_balance_for s2 state.contract =
      (get_balance_for state state.contract).set_amount_of Token.TokenA
        ((get_balance_for state state.contract).get_amount_of Token.TokenA - aout) := by
    rw [← hbal1]
    exact move_balance_from hmv1 hs
  have haout : aout ≤ (get_balance_for state state.contract).a_tokens := by
    have := move_requires hmv1
    rw [hbal1] at this
    simpa using this
  have hbal3 : get_balance_for s3 state.contract =
      (get_balance_for s2 state.contract).set_amount_of Token.TokenB
        ((get_balance_for s2 state.contract).get_amount_of Token.TokenB - bout) :=
    move_balance_from hmv2 hs
  have hbout : bout ≤ (get_balance_for state state.contract).b_tokens := by
    have h2 := move_requires hmv2
    rw [hbal2] at h2
    simpa using h2
  have hlta : lta ≤ (get_balance_for state state.contract).liquidity_tokens := by
    have h3 := deduct_eq_some_inv h
    rw [hbal3, hbal2] at h3
    simpa using h3
  have hbal4 : get_balance_for state' state.contract =
      (get_balance_for s3 state.contract).set_amount_of Token.LiquidityToken
        ((get_balance_for s3 state.contract).get_amount_of Token.LiquidityToken - lta) :=
    get_balance_for_deduct_self h
  refine ⟨hcfg, aout, bout, hcalc, haout, hbout, hlta, ?_⟩
  rw [hbal4, hbal3, hbal2]
  unfold poolA poolB poolLiquidity
  simp

/-- Inversion for a successful `provide_initial_liquidity`. -/
theorem provide_initial_effect {state : LiquiditySwapContractState} {sender ta tb : Nat}
    {state' : LiquiditySwapContractState}
    (h : provide_initial_liquidity state sender ta tb = some state')
    (hs : sender ≠ state.contract) :
    config state' = config state ∧ contract_pools_have_liquidity state = false ∧
    0 < initial_liquidity_tokens ta tb ∧
    get_balance_for state' state.contract =
      ⟨poolA state + ta, poolB state + tb,
       poolLiquidity state + initial_liquidity_tokens ta tb⟩ := by
  rw [provide_initial_liquidity] at h
  split at h
  · exact absurd h (by simp)
  · rename_i hliq
    have h2 : (if 0 < initial_liquidity_tokens ta tb then
        provide_liquidity_internal state sender state.token_a_address ta tb
          (initial_liquidity_tokens ta tb)
      else none) = some state' := h
    clear h
    split at h2
    · rename_i hm
      obtain ⟨hcfg, pt, ot, hded, heff⟩ := provide_internal_effect h2 hs
      have hpt : deduce_provided_opposite_tokens state state.token_a_address =
          some (Token.TokenA, Token.TokenB) := by
        simp [deduce_provided_opposite_tokens]
      rw [hpt] at hded
      obtain ⟨h1, h2⟩ := Prod.mk.injEq _ _ _ _ ▸ Option.some_inj.mp hded
      refine ⟨hcfg, by simpa using hliq, hm, ?_⟩
      rcases heff with ⟨-, -, hb⟩ | ⟨hbad, -, -⟩
      · unfold poolA poolB poolLiquidity
        exact hb
      · rw [← h1] at hbad
        exact absurd hbad (by simp)
    · exact absurd h2 (by simp)

/-- The contract's own balance is untouched by `deposit_callback` for a
non-contract sender. -/
theorem deposit_callback_pool {state : LiquiditySwapContractState} {sender : Nat} {token : Token}
    {amount : Nat} {state' : LiquiditySwapContractState}
    (h : deposit_callback state sender true token amount = some state')
    (hs : sender ≠ state.contract) :
    config state' = config state ∧
    get_balance_for state' state.contract = get_balance_for state state.contract := by
  rw [deposit_callback_some h]
  exact ⟨rfl, get_balance_for_add_ne _ _ _ (fun hx => hs hx.symm)⟩

/-- The contract's own balance is untouched by `withdraw` for a non-contract
sender. -/
theorem withdraw_pool {state : LiquiditySwapContractState} {sender addr amount : Nat}
    {state' : LiquiditySwapContractState}
    (h : withdraw state sender addr amount = some state') (hs : sender ≠ state.contract) :
    config state' = config state ∧
    get_balance_for state' state.contract = get_balance_for state state.contract := by
  rw [withdraw] at h
  obtain ⟨⟨pt, ot⟩, hded, h⟩ := Option.bind_eq_some.mp h
  exact ⟨config_deduct h, get_balance_for_deduct_ne h (fun hx => hs hx.symm)⟩

/-! ## Swap-pricing arithmetic -/

/-- With a funded input pool the swap succeeds and yields the spec formula. -/
theorem calculate_swap_to_amount_eq {f : Nat} (t a fee : Nat) (hf : 0 < f) :
    calculate_swap_to_amount f t a fee =
      some ((1000 - fee) * a * t / (1000 * f + (1000 - fee) * a)) := by
  unfold calculate_swap_to_amount
  rw [if_neg (by positivity)]

/-- Key bound behind the constant-product invariant:
`(f + a) · out ≤ a · t`, where `out` is the swap output. -/
theorem swap_output_mul_le {f t a fee out : Nat} (hf : 0 < f)
    (h : calculate_swap_to_amount f t a fee = some out) : (f + a) * out ≤ a * t := by
  rw [calculate_swap_to_amount_eq t a fee hf] at h
  obtain rfl := Option.some_inj.mp h.symm
  have hD : 0 < 1000 * f + (1000 - fee) * a := by positivity
  have h1 : (1000 - fee) * a * t / (1000 * f + (1000 - fee) * a) *
      (1000 * f + (1000 - fee) * a) ≤ (1000 - fee) * a * t :=
    Nat.div_mul_le_self _ _
  have h2 : (f + a) * (1000 - fee) ≤ 1000 * f + (1000 - fee) * a := by
    have h3 : f * (1000 - fee) ≤ f * 1000 := Nat.mul_le_mul_left f (by omega)
    calc (f + a) * (1000 - fee) = f * (1000 - fee) + a * (1000 - fee) := by ring
      _ ≤ f * 1000 + a * (1000 - fee) := by omega
      _ = 1000 * f + (1000 - fee) * a := by ring
  refine Nat.le_of_mul_le_mul_right ?_ hD
  calc (f + a) * ((1000 - fee) * a * t / (1000 * f + (1000 - fee) * a)) *
        (1000 * f + (1000 - fee) * a)
      = (f + a) * ((1000 - fee) * a * t / (1000 * f + (1000 - fee) * a) *
        (1000 * f + (1000 - fee) * a)) := by ring
    _ ≤ (f + a) * ((1000 - fee) * a * t) := Nat.mul_le_mul_left _ h1
    _ = (f + a) * (1000 - fee) * (a * t) := by ring
    _ ≤ (1000 * f + (1000 - fee) * a) * (a * t) := Nat.mul_le_mul_right _ h2
    _ = a * t * (1000 * f + (1000 - fee) * a) := by ring

/-- The swap output never exceeds the output pool, strictly when both pools
are funded. -/
theorem swap_output_lt {f t a fee out : Nat} (hf : 0 < f) (ht : 0 < t)
    (h : calculate_swap_to_amount f t a fee = some out) : out < t := by
  rw [calculate_swap_to_amount_eq t a fee hf] at h
  obtain rfl := Option.some_inj.mp h.symm
  have hD : 0 < 1000 * f + (1000 - fee) * a := by positivity
  rw [Nat.div_lt_iff_lt_mul hD]
  have h1 : (1000 - fee) * a ≤ 1000 * f + (1000 - fee) * a := by omega
  calc (1000 - fee) * a * t = t * ((1000 - fee) * a) := by ring
    _ < t * (1000 * f + (1000 - fee) * a) := by
        refine mul_lt_mul_of_pos_left ?_ ht
        have h2 : 0 < 1000 * f := by positivity
        omega

/-- The constant-product inequality in pure arithmetic form. -/
theorem swap_product_ineq {f t a fee out : Nat} (hf : 0 < f) (ht : 0 < t)
    (h : calculate_swap_to_amount f t a fee = some out) :
    f * t ≤ (f + a) * (t - out) := by
  have h1 := swap_output_mul_le hf h
  have h2 : out ≤ t := Nat.le_of_lt (swap_output_lt hf ht h)
  have h3 : t - out + out = t := Nat.sub_add_cancel h2
  nlinarith [h1, h3]

/-! ## Reclaim arithmetic -/

theorem reclaim_output_eq {lta a b m : Nat} (hm : 0 < m) :
    calculate_reclaim_output lta a b m = some (a * lta / m, b * lta / m) := by
  unfold calculate_reclaim_output
  rw [if_neg (by omega)]

/-- A partial reclaim leaves part of each funded pool behind. -/
theorem reclaim_partial_lt {x lta m : Nat} (hx : 0 < x) (hlt : lta < m) :
    x * lta / m < x := by
  have hm : 0 < m := by omega
  rw [Nat.div_lt_iff_lt_mul hm]
  exact mul_lt_mul_of_pos_left hlt hx

/-- Reclaiming every share takes the whole pool. -/
theorem reclaim_full {x m : Nat} (hm : 0 < m) : x * m / m = x :=
  Nat.mul_div_cancel x hm

/-! ## Pool-shape invariant (both reserves zero or both non-zero) -/

theorem contract_pools_have_liquidity_iff (state : LiquiditySwapContractState) :
    contract_pools_have_liquidity state = true ↔ 0 < poolA state ∧ 0 < poolB state := by
  unfold contract_pools_have_liquidity poolA poolB
  simp
  omega

theorem pools_not_have_liquidity_iff (state : LiquiditySwapContractState) :
    contract_pools_have_liquidity state = false ↔ poolA state = 0 ∨ poolB state = 0 := by
  unfold contract_pools_have_liquidity poolA poolB
  simp
  omega

/-- Every successful public operation preserves the pool-shape invariant. -/
theorem step_preserves_PoolShape {state state' : LiquiditySwapContractState}
    (h : Step state state') (hinv : PoolShape state) : PoolShape state' := by
  cases h with
  | of_deposit_callback sender token amount state' hs h =>
    obtain ⟨hcfg, hbal⟩ := deposit_callback_pool h hs
    unfold PoolShape poolA poolB at hinv ⊢
    rw [config_contract hcfg, hbal]
    exact hinv
  | of_withdraw sender addr amount state' hs h =>
    obtain ⟨hcfg, hbal⟩ := withdraw_pool h hs
    unfold PoolShape poolA poolB at hinv ⊢
    rw [config_contract hcfg, hbal]
    exact hinv
  | of_swap sender addr amount state' hs h =>
    obtain ⟨hcfg, hliq, pt, ot, out, hded, hout, heff⟩ := swap_effect h hs
    obtain ⟨ha, hb⟩ := (contract_pools_have_liquidity_iff state).mp hliq
    simp only [poolA, poolB] at ha hb
    unfold PoolShape poolA poolB
    rw [config_contract hcfg]
    rcases heff with ⟨hpt, hot, hbal⟩ | ⟨hpt, hot, hbal⟩
    · subst hpt
      subst hot
      rw [hbal]
      simp only [get_amount_of_a, get_amount_of_b] at hout
      have hlt := swap_output_lt ha hb hout
      simp
      omega
    · subst hpt
      subst hot
      rw [hbal]
      simp only [get_amount_of_a, get_amount_of_b] at hout
      have hlt := swap_output_lt hb ha hout
      simp
      omega
  | of_provide_liquidity sender addr amount state' hs h =>
    obtain ⟨hcfg, pt, ot, oe, m, hded, hcalc, hm, heff⟩ := provide_liquidity_effect h hs
    have hoe : 0 < oe ∧ 0 < amount := by
      rcases Nat.eq_zero_or_pos
          ((get_balance_for state state.contract).get_amount_of pt) with hp | hp
      · rw [hp] at hcalc
        unfold calculate_equivalent_and_minted_tokens at hcalc
        rw [if_pos rfl] at hcalc
        exact absurd hcalc (by simp)
      · unfold calculate_equivalent_and_minted_tokens at hcalc
        rw [if_neg (by omega)] at hcalc
        obtain ⟨h1, h2⟩ := Prod.mk.injEq _ _ _ _ ▸ Option.some_inj.mp hcalc
        rcases Nat.eq_zero_or_pos amount with ha0 | ha0
        · subst ha0
          simp at h2
          omega
        · rw [if_pos ha0] at h1
          exact ⟨h1 ▸ Nat.succ_pos _, ha0⟩
    unfold PoolShape poolA poolB
    rw [config_contract hcfg]
    rcases heff with ⟨hpt, hot, hbal⟩ | ⟨hpt, hot, hbal⟩ <;> rw [hbal] <;> simp <;> omega
  | of_reclaim_liquidity sender lta state' hs h =>
    obtain ⟨hcfg, aout, bout, hcalc, haout, hbout, hlta, hbal⟩ := reclaim_effect h hs
    have hm0 : 0 < poolLiquidity state := by
      by_contra hm
      unfold calculate_reclaim_output at hcalc
      rw [if_pos (by omega)] at hcalc
      exact absurd hcalc (by simp)
    rw [reclaim_output_eq hm0] at hcalc
    obtain ⟨h1, h2⟩ := Prod.mk.injEq _ _ _ _ ▸ Option.some_inj.mp hcalc
    subst h1
    subst h2
    have hA2 : poolA state' = poolA state - poolA state * lta / poolLiquidity state := by
      unfold poolA
      rw [config_contract hcfg, hbal]
      rfl
    have hB2 : poolB state' = poolB state - poolB state * lta / poolLiquidity state := by
      unfold poolB
      rw [config_contract hcfg, hbal]
      rfl
    unfold PoolShape
    rw [hA2, hB2]
    rcases Nat.lt_or_ge lta (poolLiquidity state) with hcase | hcase
    · rcases Nat.eq_zero_or_pos (poolA state) with hA | hA
      · have hB : poolB state = 0 := hinv.mp hA
        rw [hA, hB]
      · have hB : 0 < poolB state := by
          rcases Nat.eq_zero_or_pos (poolB state) with h0 | h0
          · exact absurd (hinv.mpr h0) (by omega)
          · exact h0
        have hlt1 := reclaim_partial_lt hA hcase
        have hlt2 := reclaim_partial_lt hB hcase
        omega
    · have hlteq : lta = poolLiquidity state := by omega
      subst hlteq
      rw [reclaim_full hm0, reclaim_full hm0]
      simp
  | of_provide_initial_liquidity sender ta tb state' hs h =>
    obtain ⟨hcfg, hliq, hm, hbal⟩ := provide_initial_effect h hs
    have hab : 0 < ta * tb := u128_sqrt_pos hm
    have hta : 0 < ta := by
      rcases Nat.eq_zero_or_pos ta with h0 | h0
      · rw [h0] at hab
        simp at hab
      · exact h0
    have htb : 0 < tb := by
      rcases Nat.eq_zero_or_pos tb with h0 | h0
      · rw [h0] at hab
        simp at hab
      · exact h0
    unfold PoolShape poolA poolB
    rw [config_contract hcfg, hbal]
    simp
    omega

/-- Every reachable state satisfies the pool-shape invariant. -/
theorem reachable_PoolShape {state : LiquiditySwapContractState} (h : Reachable state) :
    PoolShape state := by
  induction h with
  | base c ta tb fee state h =>
    unfold initContract at h
    split at h
    · exact absurd h (by simp)
    · split at h
      · rw [← Option.some_inj.mp h]
        unfold PoolShape poolA poolB get_balance_for
        simp [lookupBal, EMPTY_BALANCE]
      · exact absurd h (by simp)
  | step state state' hr hstep ih => exact step_preserves_PoolShape hstep ih

/-- `provide_initial_liquidity` succeeds only when the pool guard reports no
liquidity. -/
theorem provide_initial_guard {state : LiquiditySwapContractState} {sender ta tb : Nat}
    {state' : LiquiditySwapContractState}
    (h : provide_initial_liquidity state sender ta tb = some state') :
    contract_pools_have_liquidity state = false := by
  rw [provide_initial_liquidity] at h
  split at h
  · exact absurd h (by simp)
  · rename_i hliq
    simpa using hliq

/-- From an initialized pool, one public operation leads either to an
initialized pool or to the fully drained pool (both reserves and the whole
liquidity supply zero). -/
theorem step_liquidity_cases {state state' : LiquiditySwapContractState}
    (h : Step state state') (hliq : contract_pools_have_liquidity state = true) :
    contract_pools_have_liquidity state' = true ∨
      (poolA state' = 0 ∧ poolB state' = 0 ∧ poolLiquidity state' = 0) := by
  obtain ⟨ha, hb⟩ := (contract_pools_have_liquidity_iff state).mp hliq
  cases h with
  | of_deposit_callback sender token amount state' hs h =>
    obtain ⟨hcfg, hbal⟩ := deposit_callback_pool h hs
    refine Or.inl ((contract_pools_have_liquidity_iff _).mpr ?_)
    simp only [poolA, poolB] at ha hb ⊢
    rw [config_contract hcfg, hbal]
    exact ⟨ha, hb⟩
  | of_withdraw sender addr amount state' hs h =>
    obtain ⟨hcfg, hbal⟩ := withdraw_pool h hs
    refine Or.inl ((contract_pools_have_liquidity_iff _).mpr ?_)
    simp only [poolA, poolB] at ha hb ⊢
    rw [config_contract hcfg, hbal]
    exact ⟨ha, hb⟩
  | of_swap sender addr amount state' hs h =>
    obtain ⟨hcfg, hliq2, pt, ot, out, hded, hout, heff⟩ := swap_effect h hs
    refine Or.inl ((contract_pools_have_liquidity_iff _).mpr ?_)
    simp only [poolA, poolB] at ha hb ⊢
    rw [config_contract hcfg]
    rcases heff with ⟨hpt, hot, hbal⟩ | ⟨hpt, hot, hbal⟩
    · subst hpt
      subst hot
      rw [hbal]
      simp only [get_amount_of_a, get_amount_of_b] at hout
      have hlt := swap_output_lt ha hb hout
      simp
      omega
    · subst hpt
      subst hot
      rw [hbal]
      simp only [get_amount_of_a, get_amount_of_b] at hout
      have hlt := swap_output_lt hb ha hout
      simp
      omega
  | of_provide_liquidity sender addr amount state' hs h =>
    obtain ⟨hcfg, pt, ot, oe, m, hded, hcalc, hm, heff⟩ := provide_liquidity_effect h hs
    refine Or.inl ((contract_pools_have_liquidity_iff _).mpr ?_)
    simp only [poolA, poolB] at ha hb ⊢
    rw [config_contract hcfg]
    rcases heff with ⟨hpt, hot, hbal⟩ | ⟨hpt, hot, hbal⟩ <;> rw [hbal] <;> simp <;> omega
  | of_reclaim_liquidity sender lta state' hs h =>
    obtain ⟨hcfg, aout, bout, hcalc, haout, hbout, hlta, hbal⟩ := reclaim_effect h hs
    have hm0 : 0 < poolLiquidity state := by
      by_contra hm
      unfold calculate_reclaim_output at hcalc
      rw [if_pos (by omega)] at hcalc
      exact absurd hcalc (by simp)
    rw [reclaim_output_eq hm0] at hcalc
    obtain ⟨h1, h2⟩ := Prod.mk.injEq _ _ _ _ ▸ Option.some_inj.mp hcalc
    subst h1
    subst h2
    have hA2 : poolA state' = poolA state - poolA state * lta / poolLiquidity state := by
      unfold poolA
      rw [config_contract hcfg, hbal]
      rfl
    have hB2 : poolB state' = poolB state - poolB state * lta / poolLiquidity state := by
      unfold poolB
      rw [config_contract hcfg, hbal]
      rfl
    have hL2 : poolLiquidity state' = poolLiquidity state - lta := by
      unfold poolLiquidity
      rw [config_contract hcfg, hbal]
      rfl
    rcases Nat.lt_or_ge lta (poolLiquidity state) with hcase | hcase
    · refine Or.inl ((contract_pools_have_liquidity_iff _).mpr ?_)
      have hlt1 := reclaim_partial_lt ha hcase
      have hlt2 := reclaim_partial_lt hb hcase
      rw [hA2, hB2]
      omega
    · have hlteq : lta = poolLiquidity state := by omega
      subst hlteq
      refine Or.inr ?_
      rw [hA2, hB2, hL2]
      rw [reclaim_full hm0, reclaim_full hm0]
      simp
  | of_provide_initial_liquidity sender ta tb state' hs h =>
    have hg := provide_initial_guard h
    rw [hg] at hliq
    exact absurd hliq (by simp)

/-! # Claim theorems -/

/-- C1: for every swap with both pool reserves positive, any input amount and
any fee in per mille, the reserve product does not decrease,
`(reserve_in + amount_in) · (reserve_out - out) ≥ reserve_in · reserve_out`,
in exact integer arithmetic; equivalently, a successful `swap` operation
never decreases the product of the pool's two reserve fields. -/
theorem C1_swap_product_never_decreases :
    (∀ reserve_in reserve_out amount_in fee out : Nat, 0 < reserve_in → 0 < reserve_out →
      fee ≤ 1000 → calculate_swap_to_amount reserve_in reserve_out amount_in fee = some out →
      reserve_in * reserve_out ≤ (reserve_in + amount_in) * (reserve_out - out)) ∧
    (∀ state sender addr amount state', sender ≠ state.contract →
      swap state sender addr amount = some state' →
      poolA state * poolB state ≤ poolA state' * poolB state') := by
  constructor
  · intro f t a fee out hf ht hfee h
    exact swap_product_ineq hf ht h
  · intro state sender addr amount state' hs h
    obtain ⟨hcfg, hliq, pt, ot, out, hded, hout, heff⟩ := swap_effect h hs
    obtain ⟨ha, hb⟩ := (contract_pools_have_liquidity_iff state).mp hliq
    simp only [poolA, poolB] at ha hb ⊢
    rw [config_contract hcfg]
    rcases heff with ⟨hpt, hot, hbal⟩ | ⟨hpt, hot, hbal⟩
    · subst hpt
      subst hot
      rw [hbal]
      simp only [get_amount_of_a, get_amount_of_b] at hout
      simp
      exact swap_product_ineq ha hb hout
    · subst hpt
      subst hot
      rw [hbal]
      simp only [get_amount_of_a, get_amount_of_b] at hout
      simp
      have h2 := swap_product_ineq hb ha hout
      calc (get_balance_for state state.contract).a_tokens *
            (get_balance_for state state.contract).b_tokens
          = (get_balance_for state state.contract).b_tokens *
            (get_balance_for state state.contract).a_tokens := Nat.mul_comm _ _
        _ ≤ ((get_balance_for state state.contract).b_tokens + amount) *
            ((get_balance_for state state.contract).a_tokens - out) := h2
        _ = ((get_balance_for state state.contract).a_tokens - out) *
            ((get_balance_for state state.contract).b_tokens + amount) := Nat.mul_comm _ _

/-- C1 witness at the concrete swap `calculate_swap_to_amount 100 100 10 3 = some 9`. -/
theorem C1_swap_product_never_decreases_witness :
    (100 : Nat) * 100 ≤ (100 + 10) * (100 - 9) :=
  C1_swap_product_never_decreases.1 100 100 10 3 9 (by decide) (by decide) (by decide) (by decide)

/-- C2: for a funded input reserve and fee in `[0, 1000]`, the swap output is
exactly `(1000 - fee) · amount_in · reserve_out / (1000 · reserve_in +
(1000 - fee) · amount_in)` with truncating division, and a zero input amount
yields a zero output. -/
theorem C2_swap_output_formula :
    (∀ reserve_in reserve_out amount_in fee : Nat, 0 < reserve_in → fee ≤ 1000 →
      calculate_swap_to_amount reserve_in reserve_out amount_in fee =
        some ((1000 - fee) * amount_in * reserve_out /
          (1000 * reserve_in + (1000 - fee) * amount_in))) ∧
    (∀ reserve_in reserve_out fee : Nat, 0 < reserve_in → fee ≤ 1000 →
      calculate_swap_to_amount reserve_in reserve_out 0 fee = some 0) := by
  constructor
  · intro f t a fee hf hfee
    exact calculate_swap_to_amount_eq t a fee hf
  · intro f t fee hf hfee
    rw [calculate_swap_to_amount_eq t 0 fee hf]
    simp

/-- C2 witness at `calculate_swap_to_amount 100 100 10 3`. -/
theorem C2_swap_output_formula_witness :
    calculate_swap_to_amount 100 100 10 3 =
      some ((1000 - 3) * 10 * 100 / (1000 * 100 + (1000 - 3) * 10)) ∧
    calculate_swap_to_amount 100 100 0 3 = some 0 :=
  ⟨C2_swap_output_formula.1 100 100 10 3 (by decide) (by decide),
   C2_swap_output_formula.2 100 100 3 (by decide) (by decide)⟩

/-- C3: for a funded provided reserve, `calculate_equivalent_and_minted_tokens`
returns `floor(pa·o/p) + 1` (or `0` when `pa = 0`) as the opposite amount and
`floor(pa·l/p)` minted shares; the opposite amount is never below the exact
rational `pa·o/p`, and `(10, 100, 100, 100)` yields `(11, 10)`. -/
theorem C3_equivalent_and_minted_formula :
    (∀ provided_amount provided_reserve opposite_reserve total_shares : Nat,
      0 < provided_reserve →
      calculate_equivalent_and_minted_tokens provided_amount provided_reserve
          opposite_reserve total_shares =
        some (if provided_amount > 0 then
            provided_amount * opposite_reserve / provided_reserve + 1
          else 0, provided_amount * total_shares / provided_reserve) ∧
      provided_amount * opposite_reserve ≤
        (if provided_amount > 0 then
          provided_amount * opposite_reserve / provided_reserve + 1
        else 0) * provided_reserve) ∧
    calculate_equivalent_and_minted_tokens 10 100 100 100 = some (11, 10) := by
  constructor
  · intro pa p o l hp
    constructor
    · unfold calculate_equivalent_and_minted_tokens
      rw [if_neg (by omega)]
    · rcases Nat.eq_zero_or_pos pa with h0 | h0
      · subst h0
        simp
      · rw [if_pos h0]
        have hml : (pa * o) % p < p := Nat.mod_lt _ hp
        calc pa * o = p * (pa * o / p) + (pa * o) % p := (Nat.div_add_mod _ _).symm
          _ ≤ p * (pa * o / p) + p := by omega
          _ = (pa * o / p + 1) * p := by ring
  · decide

/-- C3 witness at `(10, 100, 100, 100)`. -/
theorem C3_equivalent_and_minted_formula_witness :
    calculate_equivalent_and_minted_tokens 10 100 100 100 =
      some (if 10 > 0 then 10 * 100 / 100 + 1 else 0, 10 * 100 / 100) ∧
    (10 : Nat) * 100 ≤ (if 10 > 0 then 10 * 100 / 100 + 1 else 0) * 100 :=
  C3_equivalent_and_minted_formula.1 10 100 100 100 (by decide)

/-- C4: for a positive total share supply, `calculate_reclaim_output` returns
the floored proportional amounts `floor(reserve·amount/total)` for both
reserves, never more than the exact rational value; `(10, 100, 100, 100)`
yields `(10, 10)` and `(10, 30, 150, 100)` yields `(3, 15)`. -/
theorem C4_reclaim_output_formula :
    (∀ liquidity_amount reserve_a reserve_b total_shares : Nat, 0 < total_shares →
      calculate_reclaim_output liquidity_amount reserve_a reserve_b total_shares =
        some (reserve_a * liquidity_amount / total_shares,
          reserve_b * liquidity_amount / total_shares) ∧
      reserve_a * liquidity_amount / total_shares * total_shares ≤
        reserve_a * liquidity_amount ∧
      reserve_b * liquidity_amount / total_shares * total_shares ≤
        reserve_b * liquidity_amount) ∧
    calculate_reclaim_output 10 100 100 100 = some (10, 10) ∧
    calculate_reclaim_output 10 30 150 100 = some (3, 15) := by
  refine ⟨?_, by decide, by decide⟩
  intro lta a b ts hts
  exact ⟨reclaim_output_eq hts, Nat.div_mul_le_self _ _, Nat.div_mul_le_self _ _⟩

/-- C4 witness at `(10, 30, 150, 100)`. -/
theorem C4_reclaim_output_formula_witness :
    calculate_reclaim_output 10 30 150 100 = some (30 * 10 / 100, 150 * 10 / 100) ∧
    30 * 10 / 100 * 100 ≤ 30 * 10 ∧ 150 * 10 / 100 * 100 ≤ (150 : Nat) * 10 :=
  C4_reclaim_output_formula.1 10 30 150 100 (by decide)

/-- C5: `u128_sqrt` terminates on every input and returns the largest `x`
with `x·x ≤ y`; in particular `u128_sqrt 25 = 5` and `u128_sqrt 20 = 4`.
(The binary search is modelled in exact integer arithmetic; the abort-on-
overflow behaviour of the checked `u128` loop is the subject of C8.) -/
theorem C5_integer_sqrt_correct :
    (∀ y : Nat, u128_sqrt y * u128_sqrt y ≤ y ∧ ∀ z : Nat, z * z ≤ y → z ≤ u128_sqrt y) ∧
    u128_sqrt 25 = 5 ∧ u128_sqrt 20 = 4 := by
  refine ⟨fun y => ⟨(u128_sqrt_spec y).1, fun z hz => le_u128_sqrt_of_sq_le hz⟩, by decide,
    by decide⟩

/-- C5 witness: `4` is a square root candidate for `20` and is bounded by
`u128_sqrt 20`. -/
theorem C5_integer_sqrt_correct_witness : 4 * 4 ≤ 20 ∧ 4 ≤ u128_sqrt 20 :=
  ⟨by decide, (C5_integer_sqrt_correct.1 20).2 4 (by decide)⟩

/-- C6 counterexample: the claim "once initialized, every subsequent
reachable state keeps both reserves non-zero, and
`provide_initial_liquidity` can succeed at most once" is false.  From the
reachable state with user 7 holding one token of each type,
`provide_initial_liquidity` succeeds and initializes the pool; reclaiming
the whole liquidity supply (one share) drains both reserves back to zero,
after which the very same `provide_initial_liquidity` call succeeds a
second time. -/
theorem C6_pool_state_machine_counterexample :
    Reachable ⟨0, 1, 2, 0, [(7, ⟨1, 1, 0⟩)]⟩ ∧
    provide_initial_liquidity ⟨0, 1, 2, 0, [(7, ⟨1, 1, 0⟩)]⟩ 7 1 1 =
      some ⟨0, 1, 2, 0, [(0, ⟨1, 1, 1⟩), (7, ⟨0, 0, 1⟩)]⟩ ∧
    contract_pools_have_liquidity ⟨0, 1, 2, 0, [(0, ⟨1, 1, 1⟩), (7, ⟨0, 0, 1⟩)]⟩ = true ∧
    reclaim_liquidity ⟨0, 1, 2, 0, [(0, ⟨1, 1, 1⟩), (7, ⟨0, 0, 1⟩)]⟩ 7 1 =
      some ⟨0, 1, 2, 0, [(7, ⟨1, 1, 0⟩)]⟩ ∧
    contract_pools_have_liquidity ⟨0, 1, 2, 0, [(7, ⟨1, 1, 0⟩)]⟩ = false := by
  refine ⟨?_, by decide, by decide, by decide, by decide⟩
  refine Reachable.step ⟨0, 1, 2, 0, [(7, ⟨1, 0, 0⟩)]⟩ _ ?_
    (Step.of_deposit_callback _ 7 Token.TokenB 1 _ (by decide) (by decide))
  exact Reachable.step ⟨0, 1, 2, 0, []⟩ _ (Reachable.base 0 1 2 0 _ (by decide))
    (Step.of_deposit_callback _ 7 Token.TokenA 1 _ (by decide) (by decide))

/-- C6 (amended): in every reachable state the two reserves are zero
together or non-zero together; from an initialized pool a public operation
leads to an initialized pool or to the fully drained pool (both reserves
and the liquidity supply zero, which only a full reclaim produces); and
`provide_initial_liquidity` succeeds only in the fully uninitialized
both-reserves-zero pool state — but after a full drain it can succeed
again, so not at most once per sequence. -/
theorem C6_pool_state_machine_amended :
    (∀ state, Reachable state → (poolA state = 0 ↔ poolB state = 0)) ∧
    (∀ state state', Reachable state → Step state state' →
      contract_pools_have_liquidity state = true →
      contract_pools_have_liquidity state' = true ∨
        (poolA state' = 0 ∧ poolB state' = 0 ∧ poolLiquidity state' = 0)) ∧
    (∀ state sender ta tb state', Reachable state →
      provide_initial_liquidity state sender ta tb = some state' →
      poolA state = 0 ∧ poolB state = 0) := by
  refine ⟨fun s h => reachable_PoolShape h,
    fun s s' hr hst hl => step_liquidity_cases hst hl, ?_⟩
  intro s sender ta tb s' hr h
  have hg := provide_initial_guard h
  have hinv := reachable_PoolShape hr
  unfold PoolShape at hinv
  rcases (pools_not_have_liquidity_iff s).mp hg with h0 | h0
  · exact ⟨h0, hinv.mp h0⟩
  · exact ⟨hinv.mpr h0, h0⟩

/-- C6 witness: the freshly initialized contract is reachable and satisfies
the shape invariant. -/
theorem C6_pool_state_machine_amended_witness :
    poolA ⟨0, 1, 2, 0, []⟩ = 0 ↔ poolB ⟨0, 1, 2, 0, []⟩ = 0 :=
  C6_pool_state_machine_amended.1 _ (Reachable.base 0 1 2 0 _ (by decide))

/-- C7 counterexample: the claim that no reachable state has an explicit
all-zero balance entry is false: a successful zero-amount deposit callback
(`deposit` places no lower bound on the amount) creates a persistent
explicit entry `(5, {0, 0, 0})`. -/
theorem C7_no_zero_entry_counterexample :
    Reachable ⟨0, 1, 2, 3, [(5, ⟨0, 0, 0⟩)]⟩ ∧
    lookupBal (⟨0, 1, 2, 3, [(5, ⟨0, 0, 0⟩)]⟩ :
      LiquiditySwapContractState).token_balances 5 = some ⟨0, 0, 0⟩ ∧
    (⟨0, 0, 0⟩ : TokenBalance).user_has_no_tokens = true := by
  refine ⟨?_, by decide, by decide⟩
  exact Reachable.step ⟨0, 1, 2, 3, []⟩ _ (Reachable.base 0 1 2 3 _ (by decide))
    (Step.of_deposit_callback _ 5 Token.TokenA 0 _ (by decide) (by decide))

/-- C7 (amended): the garbage collection of all-zero records holds on the
deduction path — after any successful deduction the deducted user's entry
is absent or non-zero, and deduction preserves the no-all-zero-entry
invariant — and a positive-amount credit also preserves it; the original
global claim fails only because a zero-amount credit to an absent user
creates an explicit all-zero entry. -/
theorem C7_no_zero_entry_amended :
    (∀ state user token amount state',
      deduct_from_token_balance state user token amount = some state' →
      ∀ tb, lookupBal state'.token_balances user = some tb →
        tb.user_has_no_tokens = false) ∧
    (∀ state user token amount state',
      deduct_from_token_balance state user token amount = some state' →
      noZeroEntries state → noZeroEntries state') ∧
    (∀ state user token amount, 0 < amount → noZeroEntries state →
      noZeroEntries (add_to_token_balance state user token amount)) := by
  refine ⟨fun s u token amount s' h tb hl => lookupBal_deduct_self h hl, ?_, ?_⟩
  · intro s u token amount s' h hz
    simp only [deduct_from_token_balance] at h
    split at h
    · rw [← Option.some_inj.mp h]
      split
      · rename_i hzero
        intro e he
        obtain ⟨he2, hne⟩ := mem_removeBal he
        rcases mem_setBal he2 with h2 | h2
        · exact absurd (congrArg Prod.fst h2) hne
        · exact hz e h2
      · rename_i hzero
        intro e he
        rcases mem_setBal he with h2 | h2
        · rw [h2]
          exact Bool.not_eq_true _ |>.mp hzero
        · exact hz e h2
    · exact absurd h (by simp)
  · intro s u token amount hamt hz e he
    simp only [add_to_token_balance] at he
    rcases mem_setBal he with h2 | h2
    · rw [h2]
      exact set_pos_not_empty _ _ (by omega)
    · exact hz e h2

/-- C7 witness: a positive credit into the empty ledger keeps the
no-all-zero-entry invariant. -/
theorem C7_no_zero_entry_amended_witness :
    noZeroEntries (add_to_token_balance ⟨0, 1, 2, 3, []⟩ 5 Token.TokenA 1) :=
  C7_no_zero_entry_amended.2.2 ⟨0, 1, 2, 3, []⟩ 5 Token.TokenA 1 (by decide)
    (fun e he => absurd he (List.not_mem_nil e))

/-- C8: the four math-kernel functions, modelled with checked `u128`
arithmetic as the spec prescribes (the build profile is not under `src/`),
never return a value derived from a wrapped intermediate: whenever a
checked function returns, its value is the exact-arithmetic result, and
representative intermediate overflows (and any argument of 65 bits or more
for the square root) make the function abort with `none`. -/
theorem C8_checked_kernel_no_wrap :
    (∀ f t a fee v : Nat, calculate_swap_to_amount_checked f t a fee = some v →
      calculate_swap_to_amount f t a fee = some v) ∧
    (∀ f t a fee : Nat, U128_LIMIT ≤ (1000 - fee) * a * t →
      calculate_swap_to_amount_checked f t a fee = none) ∧
    (∀ f t a fee : Nat, U128_LIMIT ≤ 1000 * f →
      calculate_swap_to_amount_checked f t a fee = none) ∧
    (∀ pa p o l : Nat, ∀ v : Nat × Nat,
      calculate_equivalent_and_minted_tokens_checked pa p o l = some v →
      calculate_equivalent_and_minted_tokens pa p o l = some v) ∧
    (∀ pa p o l : Nat, U128_LIMIT ≤ pa * o →
      calculate_equivalent_and_minted_tokens_checked pa p o l = none) ∧
    (∀ pa p o l : Nat, U128_LIMIT ≤ pa * l →
      calculate_equivalent_and_minted_tokens_checked pa p o l = none) ∧
    (∀ lta a b m : Nat, ∀ v : Nat × Nat,
      calculate_reclaim_output_checked lta a b m = some v →
      calculate_reclaim_output lta a b m = some v) ∧
    (∀ lta a b m : Nat, U128_LIMIT ≤ a * lta →
      calculate_reclaim_output_checked lta a b m = none) ∧
    (∀ lta a b m : Nat, U128_LIMIT ≤ b * lta →
      calculate_reclaim_output_checked lta a b m = none) ∧
    (∀ y v : Nat, u128_sqrt_checked y = some v → v = u128_sqrt y) ∧
    (∀ y : Nat, 2 ^ 65 - 1 ≤ y → u128_sqrt_checked y = none) := by
  refine ⟨fun f t a fee v h => (calculate_swap_to_amount_checked_inv h).2.2.2.2.2,
    ?_, ?_,
    fun pa p o l v h => (calculate_equivalent_and_minted_tokens_checked_inv h).2.2.2,
    ?_, ?_,
    fun lta a b m v h => (calculate_reclaim_output_checked_inv h).2.2.2,
    ?_, ?_,
    fun y v h => u128_sqrt_checked_some h,
    fun y h => u128_sqrt_checked_overflow h⟩
  · intro f t a fee hover
    cases hx : calculate_swap_to_amount_checked f t a fee with
    | none => rfl
    | some v =>
      have hb := (calculate_swap_to_amount_checked_inv hx).2.2.1
      omega
  · intro f t a fee hover
    cases hx : calculate_swap_to_amount_checked f t a fee with
    | none => rfl
    | some v =>
      have hb := (calculate_swap_to_amount_checked_inv hx).2.2.2.1
      omega
  · intro pa p o l hover
    cases hx : calculate_equivalent_and_minted_tokens_checked pa p o l with
    | none => rfl
    | some v =>
      have hb := (calculate_equivalent_and_minted_tokens_checked_inv hx).2.1
      omega
  · intro pa p o l hover
    cases hx : calculate_equivalent_and_minted_tokens_checked pa p o l with
    | none => rfl
    | some v =>
      have hb := (calculate_equivalent_and_minted_tokens_checked_inv hx).2.2.1
      omega
  · intro lta a b m hover
    cases hx : calculate_reclaim_output_checked lta a b m with
    | none => rfl
    | some v =>
      have hb := (calculate_reclaim_output_checked_inv hx).2.1
      omega
  · intro lta a b m hover
    cases hx : calculate_reclaim_output_checked lta a b m with
    | none => rfl
    | some v =>
      have hb := (calculate_reclaim_output_checked_inv hx).2.2.1
      omega

/-- C8 witness: the checked square root aborts at the largest `u128`. -/
theorem C8_checked_kernel_no_wrap_witness :
    2 ^ 65 - 1 ≤ 2 ^ 128 - 1 ∧ u128_sqrt_checked (2 ^ 128 - 1) = none :=
  ⟨by norm_num,
   C8_checked_kernel_no_wrap.2.2.2.2.2.2.2.2.2.2 (2 ^ 128 - 1) (by norm_num)⟩

/-- C9: a successful deposit callback credits exactly `amount` to the
caller's balance of the named token and changes nothing else in the
ledger; a failed callback aborts the call (no credit, state unchanged). -/
theorem C9_deposit_callback_behavior :
    (∀ state sender token amount state',
      deposit_callback state sender true token amount = some state' →
      (get_balance_for state' sender).get_amount_of token =
        (get_balance_for state sender).get_amount_of token + amount ∧
      (∀ t, t ≠ token → (get_balance_for state' sender).get_amount_of t =
        (get_balance_for state sender).get_amount_of t) ∧
      (∀ u, u ≠ sender →
        lookupBal state'.token_balances u = lookupBal state.token_balances u)) ∧
    (∀ state sender token amount,
      deposit_callback state sender false token amount = none) := by
  constructor
  · intro s sender token amount s' h
    rw [deposit_callback_some h]
    refine ⟨?_, ?_, ?_⟩
    · rw [get_balance_for_add_self, get_set_same]
    · intro t ht
      rw [get_balance_for_add_self, get_set_ne _ ht]
    · intro u hu
      exact lookupBal_add_ne _ _ _ hu
  · intro s sender token amount
    rfl

/-- C9 witness: crediting 4 of token A to user 5 on the empty ledger. -/
theorem C9_deposit_callback_behavior_witness :
    (get_balance_for ⟨0, 1, 2, 3, [(5, ⟨4, 0, 0⟩)]⟩ 5).get_amount_of Token.TokenA =
      (get_balance_for ⟨0, 1, 2, 3, []⟩ 5).get_amount_of Token.TokenA + 4 :=
  (C9_deposit_callback_behavior.1 ⟨0, 1, 2, 3, []⟩ 5 Token.TokenA 4
    ⟨0, 1, 2, 3, [(5, ⟨4, 0, 0⟩)]⟩ (by decide)).1

/-- C10: when the pool reserve of the provided token is zero,
`provide_liquidity` aborts for every amount (including zero), because
`calculate_equivalent_and_minted_tokens` divides by the provided reserve
unconditionally; the zero-input identity `(0, p, o, l) ↦ (0, 0)` holds only
under `p > 0`, and fails (panic) at `p = 0`. -/
theorem C10_provide_liquidity_zero_pool_aborts :
    (∀ state sender addr amount pt ot,
      deduce_provided_opposite_tokens state addr = some (pt, ot) →
      (get_balance_for state state.contract).get_amount_of pt = 0 →
      provide_liquidity state sender addr amount = none) ∧
    (∀ provided_reserve opposite_reserve total_shares : Nat, 0 < provided_reserve →
      calculate_equivalent_and_minted_tokens 0 provided_reserve opposite_reserve
        total_shares = some (0, 0)) ∧
    (∀ opposite_reserve total_shares : Nat,
      calculate_equivalent_and_minted_tokens 0 0 opposite_reserve total_shares = none) := by
  refine ⟨?_, ?_, ?_⟩
  · intro s sender addr amount pt ot hded hp
    cases hx : provide_liquidity s sender addr amount with
    | none => rfl
    | some s' =>
      exfalso
      rw [provide_liquidity] at hx
      obtain ⟨⟨pt', ot'⟩, hded', hx⟩ := Option.bind_eq_some.mp hx
      rw [hded'] at hded
      obtain ⟨h1, h2⟩ := Prod.mk.injEq _ _ _ _ ▸ Option.some_inj.mp hded
      subst h1
      subst h2
      obtain ⟨q, hcalc, hx⟩ := Option.bind_eq_some.mp hx
      rw [hp] at hcalc
      unfold calculate_equivalent_and_minted_tokens at hcalc
      rw [if_pos rfl] at hcalc
      exact absurd hcalc (by simp)
  · intro p o l hp
    unfold calculate_equivalent_and_minted_tokens
    rw [if_neg (by omega)]
    simp
  · intro o l
    unfold calculate_equivalent_and_minted_tokens
    rw [if_pos rfl]

/-- C10 witness: on the freshly initialized contract (empty pool),
providing liquidity in token A aborts. -/
theorem C10_provide_liquidity_zero_pool_aborts_witness :
    provide_liquidity ⟨0, 1, 2, 3, []⟩ 9 1 5 = none :=
  C10_provide_liquidity_zero_pool_aborts.1 ⟨0, 1, 2, 3, []⟩ 9 1 5 Token.TokenA Token.TokenB
    (by decide) (by decide)

end LiquiditySwap
